import Mathlib

/-!
Verification of the KarpeSlop detection engine (src/ai-slop-detector.ts).

The development shallowly embeds the engine: the detection-pattern registry,
the per-line matcher (a small backtracking regular-expression interpreter
mirroring the JavaScript `RegExp.exec` semantics used by the tool), the
context-aware suppression pipeline of `analyzeFile`, the scope heuristics
`isFetchCallProperlyHandled` and `isInTryCatchBlock`, the independent
nested-control pass `analyzeComplexNestedConditionals`, the consolidation
step `consolidateIssues`, the score calculator `calculateKarpeSlopScore`,
and the configuration validator `validateConfig` with the pure core of
`loadConfig`.  Lines of a scanned file are modelled as the list of strings
produced by splitting the file contents on newlines, exactly as the tool
does; character positions are 0-based indices into a line, as in
JavaScript, and reported columns are 1-based.
-/

/-- Characters matched by the JavaScript regular-expression class `\s`
(as far as relevant for source lines: space, tab, and the rarer ASCII
whitespace characters). -/
def jsSpaceChars : List Char := [' ', '\t', '\n', '\x0d', '\x0b', '\x0c']

def isJsSpace (c : Char) : Bool := jsSpaceChars.contains c

/-- Characters matched by the JavaScript class `\w`: letters, digits, underscore. -/
def isWordChar (c : Char) : Bool :=
  ('a' ≤ c && c ≤ 'z') || ('A' ≤ c && c ≤ 'Z') || ('0' ≤ c && c ≤ '9') || c = '_'

/-- The apostrophe character (U+0027). -/
def sqChar : Char := Char.ofNat 39

/-- The backtick character (U+0060). -/
def btChar : Char := Char.ofNat 96

/-- The opening-brace character (U+007B). -/
def lbChar : Char := Char.ofNat 123

/-- The closing-brace character (U+007D). -/
def rbChar : Char := Char.ofNat 125

/-- Does list `l` start with list `p`?  (JavaScript `String.startsWith`.) -/
def isPrefixL : List Char → List Char → Bool
  | [], _ => true
  | _ :: _, [] => false
  | p :: ps, c :: cs => p == c && isPrefixL ps cs

/-- Does list `l` contain `p` as a contiguous sublist?
(JavaScript `String.includes`.) -/
def containsL (p : List Char) : List Char → Bool
  | [] => isPrefixL p []
  | c :: cs => isPrefixL p (c :: cs) || containsL p cs

/-- JavaScript `hay.includes(needle)`. -/
def containsS (hay needle : String) : Bool := containsL needle.data hay.data

/-- JavaScript `s.startsWith(p)`. -/
def startsWithS (s p : String) : Bool := isPrefixL p.data s.data

/-- JavaScript `s.endsWith(p)`. -/
def endsWithS (s p : String) : Bool := isPrefixL p.data.reverse s.data.reverse

/-- JavaScript `s.trim()`: strip whitespace from both ends. -/
def trimS (s : String) : String :=
  String.mk (((s.data.dropWhile isJsSpace).reverse.dropWhile isJsSpace).reverse)

/-- JavaScript `s.toLowerCase()` (ASCII case folding suffices for the
source lines the engine inspects). -/
def toLowerS (s : String) : String := String.mk (s.data.map Char.toLower)

/-- JavaScript `s.endsWith('.d.ts')` specialisation used by the filter. -/
def endsWithDTs (s : String) : Bool := endsWithS s ".d.ts"

/-- Index of the first character not matching `\s`
(JavaScript `line.search(/\S/)`, with `none` for the `-1` result). -/
def searchNonSpace (l : List Char) : Option Nat :=
  match l with
  | [] => none
  | c :: cs => if isJsSpace c then (searchNonSpace cs).map (· + 1) else some 0

/-- Count occurrences of a character in a line
(JavaScript `(line.match(/c/g) || []).length` for a single character). -/
def countChar (c : Char) (l : List Char) : Nat := (l.filter (· == c)).length

/-- Element of a line list at an index, with the empty string out of range
(all engine loops stay in range, so the default is never observed). -/
def lineAt (lines : List String) (i : Nat) : String := lines.getD i ""

/-! ## A small backtracking regular-expression interpreter

The detection rules of the source are JavaScript regular expressions.  They
are embedded as abstract syntax trees (`RE`) and interpreted by `mrun`, a
continuation-passing backtracking matcher with JavaScript preference order:
alternation prefers the left branch, quantifiers are greedy unless marked
lazy, and `exec` returns the leftmost match.  Only the constructs appearing
in the source's rules are supported: literals, character classes, `.`,
sequencing, alternation, greedy/lazy star, `?`, bounded repetition, word
boundaries, one capture group and backreferences to it. -/

inductive RE where
  | eps : RE
  | lit : Char → RE
  | cls : Bool → List Char → List (Char × Char) → RE
  | anyc : RE
  | allc : RE
  | seq : RE → RE → RE
  | alt : RE → RE → RE
  | star : RE → RE
  | lazyStar : RE → RE
  | opt : RE → RE
  | rep : RE → Nat → Nat → RE
  | grp : Nat → RE → RE
  | bref : Nat → RE
  | wb : RE

/-- Membership in a character class given by explicit characters and ranges. -/
def charInCls (cs : List Char) (rs : List (Char × Char)) (c : Char) : Bool :=
  cs.contains c || rs.any (fun r => r.1 ≤ c && c ≤ r.2)

/-- Class test with negation and case-insensitivity flags. -/
def clsTest (ci : Bool) (neg : Bool) (cs : List Char) (rs : List (Char × Char)) (c : Char) : Bool :=
  let hit := charInCls cs rs c ||
    (ci && (charInCls cs rs c.toLower || charInCls cs rs c.toUpper))
  if neg then !hit else hit

/-- Literal test with the case-insensitivity flag (the JavaScript `i` flag). -/
def litTest (ci : Bool) (p c : Char) : Bool :=
  p == c || (ci && p.toLower == c.toLower)

/-- Compare the capture `s[st..en)` with the text at `pos`
(for backreferences), honouring case-insensitivity. -/
def brefTest (ci : Bool) (s : List Char) (st en pos : Nat) : Bool :=
  let cap := (s.drop st).take (en - st)
  let txt := (s.drop pos).take (en - st)
  txt.length == cap.length && (List.zip cap txt).all (fun q => litTest ci q.1 q.2)

/-- Captures: a stack of (group index, start, end) records, most recent first. -/
abbrev Caps := List (Nat × Nat × Nat)

/-- The backtracking matcher.  `mrun ci s fuel r pos caps k` attempts to
match `r` at position `pos` of `s`; on success of a branch it calls the
continuation `k` with the new position and captures, and the first branch
(in JavaScript preference order) for which `k` succeeds wins.  `fuel`
bounds the depth of the search stack; every caller supplies enough fuel for
the patterns and lines at hand (the fuel only ever decreases by one per
nested frame). -/
def mrun (ci : Bool) (s : List Char) :
    Nat → RE → Nat → Caps → (Nat → Caps → Option Nat) → Option Nat :=
  fun fuel =>
    Nat.rec (motive := fun _ => RE → Nat → Caps → (Nat → Caps → Option Nat) → Option Nat)
      (fun _ _ _ _ => none)
      (fun _ ih r pos caps k =>
        match r with
        | .eps => k pos caps
        | .lit c =>
          match s.get? pos with
          | some ch => if litTest ci c ch then k (pos + 1) caps else none
          | none => none
        | .cls neg cs rs =>
          match s.get? pos with
          | some ch => if clsTest ci neg cs rs ch then k (pos + 1) caps else none
          | none => none
        | .anyc =>
          match s.get? pos with
          | some ch => if ch == '\n' then none else k (pos + 1) caps
          | none => none
        | .allc =>
          match s.get? pos with
          | some _ => k (pos + 1) caps
          | none => none
        | .seq a b => ih a pos caps (fun p cp => ih b p cp k)
        | .alt a b =>
          match ih a pos caps k with
          | some e => some e
          | none => ih b pos caps k
        | .star r1 =>
          match ih r1 pos caps
              (fun p cp => if pos < p then ih (.star r1) p cp k else none) with
          | some e => some e
          | none => k pos caps
        | .lazyStar r1 =>
          match k pos caps with
          | some e => some e
          | none =>
            ih r1 pos caps
              (fun p cp => if pos < p then ih (.lazyStar r1) p cp k else none)
        | .opt r1 =>
          match ih r1 pos caps k with
          | some e => some e
          | none => k pos caps
        | .rep r1 lo hi =>
          if 0 < lo then
            ih r1 pos caps (fun p cp => ih (.rep r1 (lo - 1) (hi - 1)) p cp k)
          else if 0 < hi then
            match ih r1 pos caps
                (fun p cp => if pos < p then ih (.rep r1 0 (hi - 1)) p cp k else none) with
            | some e => some e
            | none => k pos caps
          else k pos caps
        | .grp i r1 => ih r1 pos caps (fun p cp => k p ((i, pos, p) :: cp))
        | .bref i =>
          match caps.find? (fun t => t.1 == i) with
          | none => k pos caps
          | some (_, st, en) =>
            if brefTest ci s st en pos then k (pos + (en - st)) caps else none
        | .wb =>
          let before := match pos with
            | 0 => false
            | q + 1 => ((s.get? q).map isWordChar).getD false
          let here := ((s.get? pos).map isWordChar).getD false
          if before != here then k pos caps else none)
      fuel

/-- Fuel that comfortably bounds the search-stack depth of every rule of
the registry on a line of the given length. -/
def fuelFor (s : List Char) : Nat := 16 * (s.length + 24)

/-- Attempt a match of `r` anchored at position `pos`; returns the end
position of the match (JavaScript preference order picks the same end the
`RegExp` engine reports). -/
def matchEnd (ci : Bool) (r : RE) (s : List Char) (pos : Nat) : Option Nat :=
  mrun ci s (fuelFor s) r pos [] (fun p _ => some p)

/-- First match at or after `from_`: the pair (start, end)
(JavaScript `exec` with `lastIndex = from_`). -/
def execFrom (ci : Bool) (r : RE) (s : List Char) : Nat → Nat → Option (Nat × Nat)
  | from_, 0 =>
    if from_ ≤ s.length then
      match matchEnd ci r s from_ with
      | some e => some (from_, e)
      | none => none
    else none
  | from_, steps + 1 =>
    if from_ ≤ s.length then
      match matchEnd ci r s from_ with
      | some e => some (from_, e)
      | none => execFrom ci r s (from_ + 1) steps
    else none

/-- All matches of a global-flag pattern on a line, as (0-based start
index, matched text) pairs, in order — the JavaScript
`while ((match = regex.exec(line)) !== null)` loop. -/
def execAllGo (ci : Bool) (r : RE) (s : List Char) : Nat → Nat → List (Nat × String)
  | _, 0 => []
  | from_, steps + 1 =>
    match execFrom ci r s from_ (s.length + 1 - from_) with
    | none => []
    | some (st, en) =>
      (st, String.mk ((s.drop st).take (en - st))) ::
        execAllGo ci r s (max en (st + 1)) steps

def execAll (ci : Bool) (r : RE) (s : List Char) : List (Nat × String) :=
  execAllGo ci r s 0 (s.length + 1)

/-! Convenience constructors mirroring the concrete syntax of the source's
regular expressions. -/

def rseq : List RE → RE
  | [] => .eps
  | [r] => r
  | r :: rs => .seq r (rseq rs)

def ralt : List RE → RE
  | [] => .eps
  | [r] => r
  | r :: rs => .alt r (ralt rs)

/-- A literal string of characters. -/
def rstr (s : String) : RE := rseq (s.data.map RE.lit)

/-- `\s` -/
def wsC : RE := .cls false jsSpaceChars []

/-- `\s*` -/
def wsStar : RE := .star wsC

/-- `\s+` -/
def wsPlus : RE := .seq wsC (.star wsC)

/-- `\w` -/
def wC : RE := .cls false ['_'] [('a', 'z'), ('A', 'Z'), ('0', '9')]

/-- `\w*` -/
def wordStar : RE := .star wC

/-- `\w+` -/
def wordPlus : RE := .seq wC (.star wC)

/-- `\d` -/
def dC : RE := .cls false [] [('0', '9')]

/-- One-or-more of a regex (`+`). -/
def rplus (r : RE) : RE := .seq r (.star r)

/-! ## The detection-pattern registry

Each record mirrors one entry of `detectionPatterns` in the source; the
original regular expression is quoted in the comment above its AST.  The
`fix`/`learnMore` fields of the source never influence the engine's
behaviour (they are only printed by the console reporter) and are omitted.
The `gi`-flagged rules carry `ci := true`; the `g`-flagged ones
`ci := false`. -/

structure DetectionPattern where
  id : String
  ci : Bool
  re : RE
  message : String
  severity : String
  description : String
  skipTests : Bool := false
  skipMocks : Bool := false

-- /const\s+(\w+)\s*=\s*\1\s*;?\s*\/\/.?(?:set|assign|store)\s+\1\b/gi
def redundant_self_explanatory_comment : DetectionPattern :=
  { id := "redundant_self_explanatory_comment", ci := true
    re := rseq [rstr "const", wsPlus, .grp 1 wordPlus, wsStar, .lit '=', wsStar,
      .bref 1, wsStar, .opt (.lit ';'), wsStar, rstr "//", .opt .anyc,
      ralt [rstr "set", rstr "assign", rstr "store"], wsPlus, .bref 1, .wb]
    message := "Redundant comment explaining variable assignment to itself â€” peak AI slop"
    severity := "high"
    description := "e.g., const count = count; // assign count to count" }

-- /\/\/\s*This (?:function|component|hook|variable|method).* (?:does|is|handles?|returns?|takes?|processes?)/gi
def excessive_boilerplate_comment : DetectionPattern :=
  { id := "excessive_boilerplate_comment", ci := true
    re := rseq [rstr "//", wsStar, rstr "This ",
      ralt [rstr "function", rstr "component", rstr "hook", rstr "variable", rstr "method"],
      .star .anyc, .lit ' ',
      ralt [rstr "does", rstr "is", .seq (rstr "handle") (.opt (.lit 's')),
        .seq (rstr "return") (.opt (.lit 's')), .seq (rstr "take") (.opt (.lit 's')),
        .seq (rstr "processe") (.opt (.lit 's'))]]
    message := "Boilerplate comment that restates the obvious â€” adds zero insight"
    severity := "medium"
    description := "AI-generated comments that explain the obvious" }

-- /console\.(log|debug|info)\([^)]+\)\s*;\s*\/\/\s*(?:debug|temp|test|check|log|print)/gi
def debug_log_with_comment : DetectionPattern :=
  { id := "debug_log_with_comment", ci := true
    re := rseq [rstr "console.", ralt [rstr "log", rstr "debug", rstr "info"],
      .lit '(', rplus (.cls true [')'] []), .lit ')', wsStar, .lit ';', wsStar,
      rstr "//", wsStar,
      ralt [rstr "debug", rstr "temp", rstr "test", rstr "check", rstr "log", rstr "print"]]
    message := "Debug log with apologetic comment â€” AI trying to justify its existence"
    severity := "medium"
    description := "Debugging code that should not be in production"
    skipTests := true }

-- /import\s*{\s*(useRouter|useParams|useSearchParams|Link|Image|Script)\s*}\s*from\s*['"]react['"]/gi
def hallucinated_react_import : DetectionPattern :=
  { id := "hallucinated_react_import", ci := true
    re := rseq [rstr "import", wsStar, .lit lbChar, wsStar,
      ralt [rstr "useRouter", rstr "useParams", rstr "useSearchParams",
        rstr "Link", rstr "Image", rstr "Script"],
      wsStar, .lit rbChar, wsStar, rstr "from", wsStar,
      .cls false [sqChar, '"'] [], rstr "react", .cls false [sqChar, '"'] []]
    message := "Hallucinated React import â€” these do NOT exist in \x27react\x27"
    severity := "critical"
    description := "React-specific APIs are NOT in the react package" }

-- /import\s*{\s*(getServerSideProps|getStaticProps|getStaticPaths)\s*}\s*from\s*['"]react['"]/gi
def hallucinated_next_import : DetectionPattern :=
  { id := "hallucinated_next_import", ci := true
    re := rseq [rstr "import", wsStar, .lit lbChar, wsStar,
      ralt [rstr "getServerSideProps", rstr "getStaticProps", rstr "getStaticPaths"],
      wsStar, .lit rbChar, wsStar, rstr "from", wsStar,
      .cls false [sqChar, '"'] [], rstr "react", .cls false [sqChar, '"'] []]
    message := "Next.js API imported from \x27react\x27 â€” 100% AI hallucination"
    severity := "critical"
    description := "Next.js APIs are NOT in the react package" }

-- /\/\/\s*(?:TODO|FIXME|HACK).*(?:implement|add|finish|complete|your code|logic|here)/gi
def todo_implementation_placeholder : DetectionPattern :=
  { id := "todo_implementation_placeholder", ci := true
    re := rseq [rstr "//", wsStar, ralt [rstr "TODO", rstr "FIXME", rstr "HACK"],
      .star .anyc,
      ralt [rstr "implement", rstr "add", rstr "finish", rstr "complete",
        rstr "your code", rstr "logic", rstr "here"]]
    message := "AI gave up and wrote a TODO instead of thinking"
    severity := "high"
    description := "Placeholder comments where AI failed to implement" }

-- /\b(assuming|assumes?|presumably|apparently|it seems|seems like)\b.{0,50}\b(that|this|the|it)\b/gi
def assumption_comment : DetectionPattern :=
  { id := "assumption_comment", ci := true
    re := rseq [.wb,
      ralt [rstr "assuming", .seq (rstr "assume") (.opt (.lit 's')), rstr "presumably",
        rstr "apparently", rstr "it seems", rstr "seems like"],
      .wb, .rep .anyc 0 50, .wb,
      ralt [rstr "that", rstr "this", rstr "the", rstr "it"], .wb]
    message := "AI making unverified assumptions â€” dangerous in production"
    severity := "high"
    description := "Comments indicating unverified assumptions" }

-- /\/\/\s*(obviously|clearly|simply|just|easy|trivial|basically|literally|of course|naturally|certainly|surely)\b/gi
def overconfident_comment : DetectionPattern :=
  { id := "overconfident_comment", ci := true
    re := rseq [rstr "//", wsStar,
      ralt [rstr "obviously", rstr "clearly", rstr "simply", rstr "just", rstr "easy",
        rstr "trivial", rstr "basically", rstr "literally", rstr "of course",
        rstr "naturally", rstr "certainly", rstr "surely"], .wb]
    message := "Overconfident comment â€” AI pretending it understands when it doesn\x27t"
    severity := "high"
    description := "Overconfident language indicating false certainty" }

-- /\/\/.*\b(should work|hopefully|probably|might work|try this|i think|seems to|attempting to|looks like|appears to)\b/gi
def hedging_uncertainty_comment : DetectionPattern :=
  { id := "hedging_uncertainty_comment", ci := true
    re := rseq [rstr "//", .star .anyc, .wb,
      ralt [rstr "should work", rstr "hopefully", rstr "probably", rstr "might work",
        rstr "try this", rstr "i think", rstr "seems to", rstr "attempting to",
        rstr "looks like", rstr "appears to"], .wb]
    message := "AI hedging its bets â€” classic sign of low-confidence generation"
    severity := "high"
    description := "Uncertain language masked as implementation" }

-- /\bconst\s+\w+\s*=\s*\(\s*async\s*\(\)\s*=>\s*\{[\s\S]*?\}\)\(\)/g
def unnecessary_iife_wrapper : DetectionPattern :=
  { id := "unnecessary_iife_wrapper", ci := false
    re := rseq [.wb, rstr "const", wsPlus, wordPlus, wsStar, .lit '=', wsStar,
      .lit '(', wsStar, rstr "async", wsStar, rstr "()", wsStar, rstr "=>", wsStar,
      .lit lbChar, .lazyStar .allc, .lit rbChar, rstr ")()"]
    message := "Unnecessary IIFE wrapper â€” AI over-engineering a simple async call"
    severity := "medium"
    description := "Unnecessarily complex function wrapping" }

-- /\?\s*['"][^'"]+['"]\s*:\s*['"][^'"]+['"]\s*\?\s*['"][^'"]+['"]\s*:\s*['"][^'"]+['"]/g
def vibe_coded_ternary_abuse : DetectionPattern :=
  { id := "vibe_coded_ternary_abuse", ci := false
    re :=
      let q : RE := .cls false [sqChar, '"'] []
      let body : RE := rplus (.cls true [sqChar, '"'] [])
      rseq [.lit '?', wsStar, q, body, q, wsStar, .lit ':', wsStar, q, body, q,
        wsStar, .lit '?', wsStar, q, body, q, wsStar, .lit ':', wsStar, q, body, q]
    message := "Nested ternary hell â€” AI trying to look clever"
    severity := "medium"
    description := "Overly complex nested ternary operations" }

-- /\b(\d{3,4}px|#\w{6}|rgba?\([^)]+\)|hsl\(\d+)/g
def magic_css_value : DetectionPattern :=
  { id := "magic_css_value", ci := false
    re := rseq [.wb,
      ralt [.seq (.rep dC 3 4) (rstr "px"),
        .seq (.lit '#') (.rep wC 6 6),
        rseq [rstr "rgb", .opt (.lit 'a'), .lit '(', rplus (.cls true [')'] []), .lit ')'],
        .seq (rstr "hsl(") (rplus dC)]]
    message := "Magic CSS value â€” extract to design token or const"
    severity := "low"
    description := "Hardcoded CSS values that should be constants" }

-- /useEffect\s*\(\s*\(\s*\)\s*=>\s*\{[^}]*set[A-Z]\w*\([^)]*\)/g
def useEffect_derived_state : DetectionPattern :=
  { id := "useEffect_derived_state", ci := false
    re := rseq [rstr "useEffect", wsStar, .lit '(', wsStar, .lit '(', wsStar, .lit ')',
      wsStar, rstr "=>", wsStar, .lit lbChar, .star (.cls true [rbChar] []),
      rstr "set", .cls false [] [('A', 'Z')], wordStar,
      .lit '(', .star (.cls true [')'] []), .lit ')']
    message := "useEffect setting state from props/other state â€” consider useMemo or compute in render"
    severity := "high"
    description := "Using useEffect to derive state is often unnecessary" }

-- /useEffect\s*\([^,]+,\s*\[\s*\]\s*\)/g
def useEffect_empty_deps_suspicious : DetectionPattern :=
  { id := "useEffect_empty_deps_suspicious", ci := false
    re := rseq [rstr "useEffect", wsStar, .lit '(', rplus (.cls true [','] []), .lit ',',
      wsStar, .lit '[', wsStar, .lit ']', wsStar, .lit ')']
    message := "useEffect with empty deps â€” verify this truly should only run on mount"
    severity := "medium"
    description := "Empty dependency arrays are often a sign of missing dependencies" }

-- /(?:for|while|forEach|map)\s*\([^)]+\)[^{]*\{[^}]*set[A-Z]\w*\(/g
def setState_in_loop : DetectionPattern :=
  { id := "setState_in_loop", ci := false
    re := rseq [ralt [rstr "for", rstr "while", rstr "forEach", rstr "map"],
      wsStar, .lit '(', rplus (.cls true [')'] []), .lit ')',
      .star (.cls true [lbChar] []), .lit lbChar, .star (.cls true [rbChar] []),
      rstr "set", .cls false [] [('A', 'Z')], wordStar, .lit '(']
    message := "setState inside a loop â€” may cause multiple re-renders"
    severity := "high"
    description := "Calling setState in a loop triggers multiple re-renders" }

-- /useCallback\s*\([^,]+,\s*\[\s*\]\s*\)/g
def useCallback_no_deps : DetectionPattern :=
  { id := "useCallback_no_deps", ci := false
    re := rseq [rstr "useCallback", wsStar, .lit '(', rplus (.cls true [','] []), .lit ',',
      wsStar, .lit '[', wsStar, .lit ']', wsStar, .lit ')']
    message := "useCallback with empty deps â€” the callback never updates"
    severity := "medium"
    description := "Empty deps means the callback is stale and may use outdated values" }

-- /:\s*any\b/g
def any_type_usage : DetectionPattern :=
  { id := "any_type_usage", ci := false
    re := rseq [.lit ':', wsStar, rstr "any", .wb]
    message := "Found \x27any\x27 type usage. Replace with specific type or unknown."
    severity := "high"
    description := "Detects : any type annotations" }

-- /Array\s*<\s*any\s*>/g
def array_any_type : DetectionPattern :=
  { id := "array_any_type", ci := false
    re := rseq [rstr "Array", wsStar, .lit '<', wsStar, rstr "any", wsStar, .lit '>']
    message := "Found Array<any> type usage. Replace with specific type or unknown[]."
    severity := "high"
    description := "Detects Array<any> patterns" }

-- /<\s*any\s*>/g
def generic_any_type : DetectionPattern :=
  { id := "generic_any_type", ci := false
    re := rseq [.lit '<', wsStar, rstr "any", wsStar, .lit '>']
    message := "Found generic <any> type usage. Replace with specific type or unknown."
    severity := "high"
    description := "Detects generic type parameters with any" }

-- /\(\s*.*\s*:\s*any\s*\)/g
def function_param_any_type : DetectionPattern :=
  { id := "function_param_any_type", ci := false
    re := rseq [.lit '(', wsStar, .star .anyc, wsStar, .lit ':', wsStar,
      rstr "any", wsStar, .lit ')']
    message := "Found function parameter with \x27any\x27 type. Replace with specific type or unknown."
    severity := "high"
    description := "Detects function parameters with any type" }

-- /\s+as\s+any\b/g
def unsafe_type_assertion : DetectionPattern :=
  { id := "unsafe_type_assertion", ci := false
    re := rseq [wsPlus, rstr "as", wsPlus, rstr "any", .wb]
    message := "Found unsafe \x27as any\x27 type assertion. Use proper type guards or validation."
    severity := "high"
    description := "Detects unsafe as any assertions" }

-- /as\s+\w+\s+as\s+\w+/g
def unsafe_double_type_assertion : DetectionPattern :=
  { id := "unsafe_double_type_assertion", ci := false
    re := rseq [rstr "as", wsPlus, wordPlus, wsPlus, rstr "as", wsPlus, wordPlus]
    message := "Found unsafe double type assertion. Consider using \x27as unknown as Type\x27 for safe conversions."
    severity := "high"
    description := "Detects unsafe double type assertions" }

-- /\[\s*["'`]?(\w+)["'`]?[^\]]*\]\s*:\s*any/g
def index_signature_any : DetectionPattern :=
  { id := "index_signature_any", ci := false
    re := rseq [.lit '[', wsStar, .opt (.cls false ['"', sqChar, btChar] []),
      .grp 1 wordPlus, .opt (.cls false ['"', sqChar, btChar] []),
      .star (.cls true [']'] []), .lit ']', wsStar, .lit ':', wsStar, rstr "any"]
    message := "Found index signature with \x27any\x27 type. Replace with specific type or unknown."
    severity := "high"
    description := "Detects index signatures with any type" }

-- /(fetch|axios|http)\s*\(/g
def missing_error_handling : DetectionPattern :=
  { id := "missing_error_handling", ci := false
    re := rseq [ralt [rstr "fetch", rstr "axios", rstr "http"], wsStar, .lit '(']
    message := "Potential missing error handling for promise. Consider adding try/catch or .catch()."
    severity := "medium"
    description := "Detects calls that might need error handling"
    skipTests := true }

-- /console\.(log|warn|error|info|debug|trace)\(/g
def production_console_log : DetectionPattern :=
  { id := "production_console_log", ci := false
    re := rseq [rstr "console.",
      ralt [rstr "log", rstr "warn", rstr "error", rstr "info", rstr "debug", rstr "trace"],
      .lit '(']
    message := "Found console logging in production code. Remove before deployment."
    severity := "medium"
    description := "Detects console logs in production code"
    skipTests := true
    skipMocks := true }

-- /(TODO|FIXME|HACK|XXX|BUG)\b/g
def todo_comment : DetectionPattern :=
  { id := "todo_comment", ci := false
    re := rseq [ralt [rstr "TODO", rstr "FIXME", rstr "HACK", rstr "XXX", rstr "BUG"], .wb]
    message := "Found TODO/FIXME/HACK comment indicating incomplete implementation."
    severity := "medium"
    description := "Detects incomplete implementation markers" }

-- /\.\s*any\s*\[/g
def unsafe_member_access : DetectionPattern :=
  { id := "unsafe_member_access", ci := false
    re := rseq [.lit '.', wsStar, rstr "any", wsStar, .lit '[']
    message := "Found potentially unsafe member access on \x27any\x27 type."
    severity := "high"
    description := "Detects unsafe member access patterns" }

/-- The built-in rule list, in registry order (the source's
`detectionPatterns` array; `complex_nested_conditionals` has no entry there
and is handled by a separate pass). -/
def detectionPatterns : List DetectionPattern :=
  [redundant_self_explanatory_comment, excessive_boilerplate_comment,
   debug_log_with_comment, hallucinated_react_import, hallucinated_next_import,
   todo_implementation_placeholder, assumption_comment, overconfident_comment,
   hedging_uncertainty_comment, unnecessary_iife_wrapper, vibe_coded_ternary_abuse,
   magic_css_value, useEffect_derived_state, useEffect_empty_deps_suspicious,
   setState_in_loop, useCallback_no_deps, any_type_usage, array_any_type,
   generic_any_type, function_param_any_type, unsafe_type_assertion,
   unsafe_double_type_assertion, index_signature_any, missing_error_handling,
   production_console_log, todo_comment, unsafe_member_access]

/-! ## Issues and the per-file analysis pipeline -/

structure AISlopIssue where
  type : String
  file : String
  line : Nat
  column : Nat
  code : String
  message : String
  severity : String
  deriving DecidableEq, Repr

structure ConsolidatedIssue where
  type : String
  file : String
  code : String
  message : String
  severity : String
  location : List String
  deriving DecidableEq, Repr

/-- Test-file categorisation of `analyzeFile` (used both for the
`skipTests` exemption and for the quiet-mode check, which recomputes the
same predicate). -/
def isTestFile (filePath : String) : Bool :=
  containsS filePath "__tests__" || containsS filePath ".test." ||
  containsS filePath ".spec." || containsS filePath "__mocks__" ||
  containsS filePath "test-"

def isMockFile (filePath : String) : Bool :=
  containsS filePath "__mocks__" || containsS filePath "mock"

/-- The function-start condition of `isFetchCallProperlyHandled`'s backward
scan: a line mentioning a function-definition keyword, an arrow, a
hook-bearing `const`, or a default export, that also carries an opening
brace or an arrow. -/
def functionStartCond (line : String) : Bool :=
  containsS line "async function" || containsS line "function" || containsS line "=>" ||
  (containsS line "const" && (containsS line "useState" || containsS line "useEffect" ||
    containsS line "useCallback" || containsS line "useMemo")) ||
  containsS line "export default function"

/-- Backward scan of `isFetchCallProperlyHandled` for the function start
(`for (let i = fetchLineIndex; i >= Math.max(0, fetchLineIndex - 20); i--)`).
The first argument counts the remaining iterations. -/
def findFunctionStartGo (lines : List String) : Nat → Nat → Option Nat
  | 0, _ => none
  | k + 1, i =>
    let line := lineAt lines i
    if functionStartCond line && (containsS line "\x7b" || containsS line "=>") then some i
    else if decide (0 < i) && containsS (lineAt lines (i - 1) ++ line) "=>" &&
        startsWithS (trimS line) "\x7b" then some i
    else
      match i with
      | 0 => none
      | j + 1 => findFunctionStartGo lines k j

def findFunctionStart (lines : List String) (fetchLineIndex : Nat) : Option Nat :=
  findFunctionStartGo lines (fetchLineIndex - (fetchLineIndex - 20) + 1) fetchLineIndex

/-- State of the forward brace scan for the function end. -/
structure FeState where
  braceCount : Int
  inFunction : Bool
  functionEnd : Option Nat

/-- One character of the forward scan (`{` and `}` counting with the
`inFunction`/`functionEnd` bookkeeping of the source; the scan freezes once
the end was found, like the `break` statements). -/
def feChar (fStartI : Int) (i : Nat) (st : FeState) (c : Char) : FeState :=
  if st.functionEnd.isSome then st
  else if c == lbChar then
    let bc := st.braceCount + 1
    { st with
      braceCount := bc
      inFunction := st.inFunction || ((i : Int) == fStartI && bc == 1) }
  else if c == rbChar then
    let bc := st.braceCount - 1
    if st.inFunction && bc == 0 then
      { braceCount := bc, inFunction := st.inFunction, functionEnd := some i }
    else { st with braceCount := bc }
  else st

/-- Forward scan of `isFetchCallProperlyHandled`
(`for (i = functionStart === -1 ? 0 : functionStart; i < lines.length && i < fetchLineIndex + 20; i++)`). -/
def findFunctionEnd (lines : List String) (fStart : Option Nat) (fetchLineIndex : Nat) :
    Option Nat :=
  let fStartI : Int := match fStart with | some j => (j : Int) | none => -1
  let start := fStart.getD 0
  let stop := min lines.length (fetchLineIndex + 20)
  ((List.range' start (stop - start)).foldl
    (fun st i => (lineAt lines i).data.foldl (feChar fStartI i) st)
    { braceCount := 0, inFunction := false, functionEnd := none }).functionEnd

/-- The error-handling tokens looked for inside a bounded function scope. -/
def handlerTokens (line : String) : Bool :=
  containsS line ".catch(" || containsS line "try \x7b" || containsS line "try\x7b"

/-- The local-window fallback when no function scope could be bounded
(two lines before to two lines after the call). -/
def fallbackWindowCheck (lines : List String) (fetchLineIndex : Nat) : Bool :=
  let start := fetchLineIndex - 2
  let stop := min lines.length (fetchLineIndex + 3)
  (List.range' start (stop - start)).any fun i =>
    let line := lineAt lines i
    containsS line ".catch(" || containsS line "try \x7b" || containsS line "try\x7b" ||
      (decide (0 < i) && containsS (lineAt lines (i - 1)) "try" && containsS line ".catch(")

/-- The promise-chain scan: up to five lines starting at the call, stopping
at a statement-terminating semicolon. -/
def chainScan (lines : List String) : List Nat → Bool
  | [] => false
  | i :: rest =>
    let line := lineAt lines i
    if containsS line ".catch(" then true
    else if containsS line ";" && !endsWithS (trimS line) "\\" && !endsWithS (trimS line) ","
      then false
    else chainScan lines rest

/-- The source's `isFetchCallProperlyHandled(lines, fetchLineIndex,
fetchCallIndex)` (the third argument is accepted but never used, exactly as
in the source). -/
def isFetchCallProperlyHandled (lines : List String) (fetchLineIndex : Nat)
    (fetchCallIndex : Nat) : Bool :=
  let _ := fetchCallIndex
  let functionStart := findFunctionStart lines fetchLineIndex
  let functionEnd := findFunctionEnd lines functionStart fetchLineIndex
  match functionStart, functionEnd with
  | some fs, some fe =>
    if (List.range' fs (fe + 1 - fs)).any (fun i => handlerTokens (lineAt lines i)) then true
    else
      let currentLine := lineAt lines fetchLineIndex
      if containsS currentLine "fetch(" &&
          (containsS currentLine ".then(" || containsS currentLine ".catch(") then
        chainScan lines
          (List.range' fetchLineIndex (min lines.length (fetchLineIndex + 5) - fetchLineIndex))
      else false
  | _, _ => fallbackWindowCheck lines fetchLineIndex

/-- Brace search below a brace-less `catch (` line
(`for (let j = i + 1; j < Math.min(i + 5, lines.length); j++)`). -/
def catchBraceNearby (lines : List String) (i : Nat) : Bool :=
  (List.range' (i + 1) (min (i + 5) lines.length - (i + 1))).any
    (fun j => containsS (lineAt lines j) "\x7b")

/-- JavaScript `catchBlockStartLine > i` with `-1` for "none". -/
def catchSeenGT (c : Option Nat) (i : Nat) : Bool :=
  match c with
  | some j => decide (i < j)
  | none => false

/-- The backward scan of `isInTryCatchBlock`: from the target line towards
line 0, carrying the clamped brace depth (`tryBlockDepth`) and the line of
the most recently seen `catch (` opener (`catchBlockStartLine`). -/
def tryCatchScan (lines : List String) : Nat → Nat → Option Nat → Bool
  | i, depth, catchStart =>
    let line := lineAt lines i
    let hasCatch := containsS line "catch ("
    let catchStart' := if hasCatch then some i else catchStart
    if hasCatch && (containsS line "\x7b" || catchBraceNearby lines i) then true
    else if (containsS line "try \x7b" || (containsS line "try" && containsS line "\x7b")) &&
        catchSeenGT catchStart' i then true
    else
      let openBraces := countChar lbChar line.data
      let closeBraces := countChar rbChar line.data
      let depth' :=
        if closeBraces < openBraces then depth + 1
        else if openBraces < closeBraces then depth - (closeBraces - openBraces)
        else depth
      if depth' == 0 && catchSeenGT catchStart' i then true
      else
        match i with
        | 0 => false
        | j + 1 => tryCatchScan lines j depth' catchStart'

def isInTryCatchBlock (lines : List String) (lineIndex : Nat) : Bool :=
  tryCatchScan lines lineIndex 0 none

/-! ## The nested-control pass -/

/-- `/\bif\s*\(/g` -/
def reIfOpen : RE := rseq [.wb, rstr "if", wsStar, .lit '(']

/-- `/\bfor\s*\(/g` -/
def reForOpen : RE := rseq [.wb, rstr "for", wsStar, .lit '(']

/-- `/\bwhile\s*\(/g` -/
def reWhileOpen : RE := rseq [.wb, rstr "while", wsStar, .lit '(']

/-- The source's `analyzeComplexNestedConditionals` for one line: the
single-line multi-opener trigger, then the indentation trigger. -/
def analyzeComplexNestedConditionals (filePath : String) (lines : List String)
    (lineIndex : Nat) : List AISlopIssue :=
  let line := lineAt lines lineIndex
  let lineNumber := lineIndex + 1
  let ifCount := (execAll false reIfOpen line.data).length
  let forCount := (execAll false reForOpen line.data).length
  let whileCount := (execAll false reWhileOpen line.data).length
  let singleLine : List AISlopIssue :=
    if decide (1 < ifCount) || decide (1 < forCount) || decide (1 < whileCount) ||
        (decide (0 < ifCount) && (decide (0 < forCount) || decide (0 < whileCount))) ||
        (decide (0 < forCount) && decide (0 < whileCount)) then
      [{ type := "complex_nested_conditionals", file := filePath, line := lineNumber,
         column := 1, code := trimS line,
         message := "Found potentially complex nested control structures in a single line. Consider refactoring for readability.",
         severity := "medium" }]
    else []
  let indented : List AISlopIssue :=
    match searchNonSpace line.data with
    | none => []
    | some indentation =>
      if decide (16 ≤ indentation) &&
          (containsS line "if (" || containsS line "for (" || containsS line "while (") &&
          !startsWithS (trimS line) "//" && !containsS (trimS line) "=>" then
        [{ type := "complex_nested_conditionals", file := filePath, line := lineNumber,
           column := indentation + 1, code := trimS line,
           message := "Highly indented control structure suggests deep nesting. Consider refactoring for readability.",
           severity := "medium" }]
      else []
  singleLine ++ indented

/-! ## The context filter and `analyzeFile` -/

/-- Rules subject to the acknowledgment-marker stage: id mentions the
permissive type or an unsafe cast. -/
def anyOrUnsafeRule (id : String) : Bool := containsS id "any" || containsS id "unsafe"

/-- The inline acknowledgment markers of the first suppression stage: a
linter-disable or type-system error-suppression comment on the current
line, or an eslint-disable-next-line / @ts-expect-error marker on the
immediately preceding line (`i > 0 ? lines[i - 1] : ''`). -/
def ackMarkerPresent (lines : List String) (i : Nat) : Bool :=
  let line := lineAt lines i
  let prevLine := if 0 < i then lineAt lines (i - 1) else ""
  containsS line "eslint-disable" || containsS line "@ts-expect-error" ||
    containsS line "@ts-ignore" || containsS prevLine "eslint-disable-next-line" ||
    containsS prevLine "@ts-expect-error"

/-- The suppression pipeline of `analyzeFile`'s match loop: the sequence of
`continue` guards, in source order (`r1` the acknowledgment markers … `r14`
the quiet-mode test-file check).  A match becomes an Issue exactly when no
guard fires. -/
def acceptMatch (p : DetectionPattern) (filePath : String) (lines : List String)
    (i : Nat) (quiet : Bool) (matchIndex : Nat) : Bool :=
  let _ := matchIndex
  let line := lineAt lines i
  let r1 := anyOrUnsafeRule p.id && ackMarkerPresent lines i
  let r2 := containsS p.id "any" && endsWithS filePath ".d.ts"
  let r3 := p.id == "any_type_usage" &&
    (containsS line "expect.any(" || containsS line "jest.fn()")
  let r4 := p.id == "any_type_usage" && containsS line "\x7b..." && containsS line "as any"
  let r5 := p.id == "any_type_usage" &&
    (containsS line "JSON.parse(" || containsS line ".json" || containsS line "response.json")
  let r6 := p.id == "any_type_usage" &&
    (containsS line "ApiResponse" || containsS line "apiResponse" ||
     containsS line "res.json" || containsS line "fetch" || containsS line "axios")
  let r7 := p.id == "any_type_usage" &&
    (containsS line "data: any" || containsS line "(data: any)" ||
     containsS line "result: any" || containsS line "response: any") &&
    (containsS line "parse" || containsS line "process" || containsS line "transform")
  let r8a := p.id == "function_param_any_type" && containsS line "(data: any)" &&
    (containsS line "parse" || containsS line "process" || containsS line "transform")
  let r8b := p.id == "function_param_any_type" &&
    (containsS line "ApiResponse" || containsS line "apiResponse" ||
     containsS line "JSON.parse" || containsS line "response: any")
  let r9 := p.id == "missing_error_handling" && isFetchCallProperlyHandled lines i matchIndex
  let r10 := p.id == "unsafe_double_type_assertion" && containsS (trimS line) "as unknown as"
  let fullLine := trimS line
  let r11 := p.id == "production_console_log" &&
    ((containsS fullLine "console.error(" && isInTryCatchBlock lines i) ||
     (containsS fullLine "console.log(" &&
       (containsS fullLine "Debug" || containsS fullLine "debug" || containsS fullLine "debug:")) ||
     ((containsS fullLine "console.log(" || containsS fullLine "console.info(") &&
       (containsS fullLine "error" || containsS fullLine "Error")))
  let r12 := (p.id == "hedging_uncertainty_comment" || p.id == "assumption_comment") &&
    (containsS filePath "test" || containsS filePath "spec" || containsS filePath "__tests__" ||
     (let fl := toLowerS (trimS line)
      containsS fl "should work" && (containsS fl "//" || containsS fl "/*" || containsS fl "*/")))
  let r13 := p.id == "unsafe_type_assertion" &&
    (containsS filePath "test" || containsS filePath "spec" || containsS filePath "__tests__")
  let r14 := quiet && p.id != "production_console_log" && isTestFile filePath
  !(r1 || r2 || r3 || r4 || r5 || r6 || r7 || r8a || r8b || r9 || r10 || r11 ||
    r12 || r13 || r14)

/-- The composed Issue message: `<rule.message> (<rule.description>)`. -/
def composeMessage (p : DetectionPattern) : String :=
  p.message ++ " (" ++ p.description ++ ")"

/-- All Issues one rule produces on one line of a file: the skip-flag and
separate-pass guards, then the match loop filtered by the suppression
pipeline. -/
def analyzeLinePattern (filePath : String) (lines : List String) (i : Nat)
    (quiet : Bool) (p : DetectionPattern) : List AISlopIssue :=
  if (p.skipTests && isTestFile filePath) || (p.skipMocks && isMockFile filePath) then []
  else if p.id == "complex_nested_conditionals" then []
  else
    (execAll p.ci p.re (lineAt lines i).data).filterMap fun m =>
      if acceptMatch p filePath lines i quiet m.1 then
        some { type := p.id, file := filePath, line := i + 1, column := m.1 + 1,
               code := m.2, message := composeMessage p, severity := p.severity }
      else none

/-- The source's `analyzeFile`: for each line, every registry rule in
order, then the nested-control pass. -/
def analyzeFile (filePath : String) (lines : List String) (quiet : Bool) :
    List AISlopIssue :=
  ((List.range lines.length).map fun i =>
    ((detectionPatterns.map (analyzeLinePattern filePath lines i quiet)).flatten)
      ++ analyzeComplexNestedConditionals filePath lines i).flatten

/-! ## Consolidation -/

/-- The grouping key of `consolidateIssues`:
`` `${issue.type}|${issue.file}|${issue.code}|${issue.message}|${issue.severity}` ``. -/
def keyOf (i : AISlopIssue) : String :=
  i.type ++ "|" ++ i.file ++ "|" ++ i.code ++ "|" ++ i.message ++ "|" ++ i.severity

/-- The `"line:column"` location string of one Issue. -/
def locOf (i : AISlopIssue) : String := toString i.line ++ ":" ++ toString i.column

def newConsolidated (i : AISlopIssue) : ConsolidatedIssue :=
  { type := i.type, file := i.file, code := i.code, message := i.message,
    severity := i.severity, location := [locOf i] }

def addLoc (c : ConsolidatedIssue) (i : AISlopIssue) : ConsolidatedIssue :=
  { c with location := c.location ++ [locOf i] }

/-- One step of `consolidateIssues`: the insertion-ordered map is an
association list; `Map.has` then either push onto the existing entry's
location list or append a fresh entry. -/
def insertIssue (m : List (String × ConsolidatedIssue)) (i : AISlopIssue) :
    List (String × ConsolidatedIssue) :=
  if m.any (fun kv => kv.1 == keyOf i) then
    m.map (fun kv => if kv.1 == keyOf i then (kv.1, addLoc kv.2 i) else kv)
  else m ++ [(keyOf i, newConsolidated i)]

/-- The source's `consolidateIssues` (a JavaScript `Map` preserves
insertion order, so the values come out in first-seen key order). -/
def consolidateIssues (issues : List AISlopIssue) : List ConsolidatedIssue :=
  (issues.foldl insertIssue []).map Prod.snd

/-! ## The score calculator -/

structure SlopScoreBreakdown where
  informationUtility : Nat
  informationQuality : Nat
  style : Nat
  total : Nat
  deriving DecidableEq, Repr

/-- The fixed weight table of `calculateKarpeSlopScore`
(`weights[i.type] || 3`). -/
def slopWeight (t : String) : Nat :=
  if t == "hallucinated_react_import" then 30
  else if t == "hallucinated_next_import" then 30
  else if t == "any_type_usage" then 15
  else if t == "unsafe_type_assertion" then 12
  else if t == "unsafe_double_type_assertion" then 12
  else if t == "overconfident_comment" then 10
  else if t == "hedging_uncertainty_comment" then 10
  else if t == "todo_implementation_placeholder" then 12
  else if t == "assumption_comment" then 11
  else if t == "redundant_self_explanatory_comment" then 8
  else if t == "excessive_boilerplate_comment" then 6
  else if t == "debug_log_with_comment" then 5
  else if t == "unnecessary_iife_wrapper" then 7
  else if t == "vibe_coded_ternary_abuse" then 6
  else 3

/-- One loop iteration of the score calculator over the accumulator
(utility, quality, style). -/
def scoreStep (acc : Nat × Nat × Nat) (i : AISlopIssue) : Nat × Nat × Nat :=
  let w := slopWeight i.type
  if containsS i.type "hallucinated" || containsS i.type "todo" ||
      containsS i.type "assumption" then
    (acc.1, acc.2.1 + w, acc.2.2)
  else if containsS i.type "comment" || containsS i.type "redundant" ||
      containsS i.type "boilerplate" then
    (acc.1 + w, acc.2.1, acc.2.2)
  else (acc.1, acc.2.1, acc.2.2 + w)

/-- The source's `calculateKarpeSlopScore`. -/
def calculateKarpeSlopScore (issues : List AISlopIssue) : SlopScoreBreakdown :=
  let acc := issues.foldl scoreStep (0, 0, 0)
  { informationUtility := acc.1, informationQuality := acc.2.1, style := acc.2.2,
    total := acc.1 + acc.2.1 + acc.2.2 }

/-! ## Claim-side predicate for the try/catch-enclosure claim

The claim describes `isInTryCatchBlock` as returning true exactly when a
catch opener is found whose brace depth encloses the target, or when the
backward scan's depth returns to zero below a previously seen catch
opener.  The following definitions spell that wording out at the engine's
line granularity so it can be compared with the code. -/

/-- Net brace balance of one line. -/
def lineBalance (line : String) : Int :=
  (countChar lbChar line.data : Int) - (countChar rbChar line.data : Int)

/-- Cumulative brace balance of `lines[b..k]` (both inclusive). -/
def balanceRange (lines : List String) (b k : Nat) : Int :=
  ((List.range' b (k + 1 - b)).map (fun j => lineBalance (lineAt lines j))).sum

/-- First line at or after `i` (up to `t`) carrying an opening brace: the
line opening the catch block of a `catch (` found at line `i`. -/
def firstBraceLine (lines : List String) (i t : Nat) : Option Nat :=
  (List.range' i (t + 1 - i)).find? (fun b => containsS (lineAt lines b) "\x7b")

/-- The claim's first disjunct: some line at or before the target carries a
`catch (` opener whose block's brace depth encloses the target — the
running balance from the block's opening-brace line up to the target never
returns to zero. -/
def claimCatchEncloses (lines : List String) (t : Nat) : Bool :=
  (List.range (t + 1)).any fun i =>
    containsS (lineAt lines i) "catch (" &&
    (match firstBraceLine lines i t with
     | some b => (List.range' b (t + 1 - b)).all fun k =>
         decide (1 ≤ balanceRange lines b k)
     | none => false)

/-- Depth values of the claim's backward scan: for each scanned line `i`
(from the target down), the clamped depth after processing it — the same
depth recurrence the code tracks. -/
def claimBackDepths (lines : List String) (t : Nat) : List (Nat × Nat) :=
  (((List.range (t + 1)).reverse).foldl
    (fun (acc : Nat × List (Nat × Nat)) i =>
      let line := lineAt lines i
      let o := countChar lbChar line.data
      let c := countChar rbChar line.data
      let d := if c < o then acc.1 + 1 else if o < c then acc.1 - (c - o) else acc.1
      (d, acc.2 ++ [(i, d)]))
    (0, [])).2

/-- The claim's second disjunct: the backward scan's depth returns to zero
at a line strictly below a catch opener it has already passed. -/
def claimDepthZeroBelowCatch (lines : List String) (t : Nat) : Bool :=
  (claimBackDepths lines t).any fun p =>
    p.2 == 0 &&
    (List.range' (p.1 + 1) (t - p.1)).any (fun j => containsS (lineAt lines j) "catch (")

/-- The claim's stated condition for `isInTryCatchBlock` returning true. -/
def claimGuardCondition (lines : List String) (t : Nat) : Bool :=
  claimCatchEncloses lines t || claimDepthZeroBelowCatch lines t

/-! ## Spec-side view of consolidation (for the grouping claim) -/

/-- Distinct keys in first-seen order (accumulating the keys already
emitted). -/
def firstKeysAux (seen : List String) : List String → List String
  | [] => []
  | k :: ks =>
    if seen.contains k then firstKeysAux seen ks
    else k :: firstKeysAux (k :: seen) ks

def firstKeys (l : List String) : List String := firstKeysAux [] l

/-- The grouping key re-read off a ConsolidatedIssue. -/
def keyOfC (c : ConsolidatedIssue) : String :=
  c.type ++ "|" ++ c.file ++ "|" ++ c.code ++ "|" ++ c.message ++ "|" ++ c.severity

/-- The group a key should produce: fields of the first Issue with that
key, locations of all of them in order. -/
def groupFor (issues : List AISlopIssue) (k : String) : ConsolidatedIssue :=
  match issues.find? (fun i => keyOf i == k) with
  | some i0 =>
    { type := i0.type, file := i0.file, code := i0.code, message := i0.message,
      severity := i0.severity,
      location := (issues.filter (fun i => keyOf i == k)).map locOf }
  | none =>
    { type := "", file := "", code := "", message := "", severity := "", location := [] }

/-- Total number of recorded locations across consolidated issues. -/
def locSum (cs : List ConsolidatedIssue) : Nat :=
  (cs.map (fun c => c.location.length)).sum

/-- No field of the Issue contains the `|` key separator (true of every
built-in rule's id, message and severity, and of ordinary paths and
matched texts). -/
def noPipe (i : AISlopIssue) : Bool :=
  !(containsS i.type "|" || containsS i.file "|" || containsS i.code "|" ||
    containsS i.message "|" || containsS i.severity "|")

/-! ## The configuration model

`validateConfig` duck-types the parsed JSON, so the input is modelled as a
JSON value.  Compiling a custom pattern string is delegated by the source
to the JavaScript `RegExp` constructor; the embedding abstracts that
engine as an oracle `compiles : String → Bool` for validation and
`compileRe : String → RE` for construction. -/

inductive JVal where
  | jnull : JVal
  | jbool : Bool → JVal
  | jnum : Int → JVal
  | jstr : String → JVal
  | jarr : List JVal → JVal
  | jobj : List (String × JVal) → JVal

/-- Property access (`undefined` as `none`; on non-objects JavaScript
property access also yields `undefined` — for `null` it would throw, which
for the validator is likewise a failure, see `validateCustomPattern`). -/
def jget (v : JVal) (k : String) : Option JVal :=
  match v with
  | .jobj fs => (fs.find? (fun f => f.1 == k)).map (fun f => f.2)
  | _ => none

/-- JavaScript truthiness of a possibly-absent value. -/
def jtruthy : Option JVal → Bool
  | none => false
  | some .jnull => false
  | some (.jbool b) => b
  | some (.jnum n) => n != 0
  | some (.jstr s) => s != ""
  | some (.jarr _) => true
  | some (.jobj _) => true

def jIsStr : Option JVal → Bool
  | some (.jstr _) => true
  | _ => false

def jStrVal : Option JVal → String
  | some (.jstr s) => s
  | _ => ""

def jvalAsStr : JVal → String
  | .jstr s => s
  | _ => ""

/-- `Object.entries` (arrays enumerate with index keys). -/
def entriesOf : JVal → List (String × JVal)
  | .jobj fs => fs
  | .jarr xs => xs.enum.map (fun p => (toString p.1, p.2))
  | _ => []

def validSeverities : List String := ["critical", "high", "medium", "low"]

/-- The per-rule schema checks of `validateConfig`, in source order: id,
pattern, message, severity, then compilation of the pattern. -/
def validateCustomPattern (compiles : String → Bool) (i : Nat) (p : JVal) :
    Except String Unit :=
  let pid := jget p "id"
  if !(jtruthy pid && jIsStr pid) then
    .error ("customPatterns[" ++ toString i ++ "].id must be a string")
  else
    let pat := jget p "pattern"
    if !(jtruthy pat && jIsStr pat) then
      .error ("customPatterns[" ++ toString i ++ "].pattern must be a string")
    else
      let msg := jget p "message"
      if !(jtruthy msg && jIsStr msg) then
        .error ("customPatterns[" ++ toString i ++ "].message must be a string")
      else
        let sev := jget p "severity"
        if !(jtruthy sev && validSeverities.contains (jStrVal sev)) then
          .error ("customPatterns[" ++ toString i ++
            "].severity must be one of: critical, high, medium, low")
        else if !compiles (jStrVal pat) then
          .error ("customPatterns[" ++ toString i ++ "].pattern is not a valid regex: " ++
            jStrVal pat)
        else .ok ()

/-- The indexed loop over `cfg.customPatterns`, stopping at the first
failing rule. -/
def validateCustomPatterns (compiles : String → Bool) : Nat → List JVal → Except String Unit
  | _, [] => .ok ()
  | i, p :: ps =>
    match validateCustomPattern compiles i p with
    | .error e => .error e
    | .ok _ => validateCustomPatterns compiles (i + 1) ps

def validateSeverityOverrides : List (String × JVal) → Except String Unit
  | [] => .ok ()
  | (k, v) :: rest =>
    if validSeverities.contains (jvalAsStr v) then validateSeverityOverrides rest
    else .error ("severityOverrides." ++ k ++ " must be one of: critical, high, medium, low")

def validateIgnorePaths : Nat → List JVal → Except String Unit
  | _, [] => .ok ()
  | i, v :: vs =>
    match v with
    | .jstr _ => validateIgnorePaths (i + 1) vs
    | _ => .error ("ignorePaths[" ++ toString i ++ "] must be a string")

/-- The source's `validateConfig`: top-level shape, then `customPatterns`,
then `severityOverrides`, then `ignorePaths`; the validated raw value is
returned unchanged. -/
def validateConfig (compiles : String → Bool) (config : JVal) : Except String JVal :=
  match config with
  | .jnull => .error "Config must be an object"
  | .jbool _ => .error "Config must be an object"
  | .jnum _ => .error "Config must be an object"
  | .jstr _ => .error "Config must be an object"
  | _ =>
    let step1 : Except String Unit :=
      match jget config "customPatterns" with
      | none => .ok ()
      | some (.jarr xs) => validateCustomPatterns compiles 0 xs
      | some _ => .error "customPatterns must be an array"
    match step1 with
    | .error e => .error e
    | .ok _ =>
      let step2 : Except String Unit :=
        match jget config "severityOverrides" with
        | none => .ok ()
        | some (.jobj fs) => validateSeverityOverrides fs
        | some (.jarr xs) => validateSeverityOverrides (entriesOf (.jarr xs))
        | some _ => .error "severityOverrides must be an object"
      match step2 with
      | .error e => .error e
      | .ok _ =>
        match jget config "ignorePaths" with
        | none => .ok config
        | some (.jarr xs) =>
          match validateIgnorePaths 0 xs with
          | .error e => .error e
          | .ok _ => .ok config
        | some _ => .error "ignorePaths must be an array of strings"

/-- Registry state touched by `loadConfig`: the mutable pattern list and
the stored ignore paths. -/
structure RegistryState where
  patterns : List DetectionPattern
  customIgnorePaths : List String

/-- Custom patterns as `loadConfig` registers them after successful
validation (`new RegExp(pattern, 'gi')` makes every custom rule
case-insensitive; `description || message` falls back to the message). -/
def extractCustomPatterns (compileRe : String → RE) (cfg : JVal) : List DetectionPattern :=
  match jget cfg "customPatterns" with
  | some (.jarr xs) => xs.map fun p =>
      { id := jStrVal (jget p "id"), ci := true,
        re := compileRe (jStrVal (jget p "pattern")),
        message := jStrVal (jget p "message"),
        severity := jStrVal (jget p "severity"),
        description :=
          if jtruthy (jget p "description") then jStrVal (jget p "description")
          else jStrVal (jget p "message") }
  | _ => []

/-- `detectionPatterns.find(p => p.id === patternId)` then a severity
assignment: only the first pattern with the id is updated. -/
def updateFirst (ps : List DetectionPattern) (pid sev : String) : List DetectionPattern :=
  match ps with
  | [] => []
  | p :: rest =>
    if p.id == pid then { p with severity := sev } :: rest
    else p :: updateFirst rest pid sev

def applySeverityOverrides (ps : List DetectionPattern) :
    List (String × JVal) → List DetectionPattern
  | [] => ps
  | (k, v) :: rest => applySeverityOverrides (updateFirst ps k (jvalAsStr v)) rest

/-- The pure core of one `loadConfig` step for a parsed configuration
file: validation failure is caught (a warning is printed) and nothing is
applied; on success custom patterns are appended, severity overrides
applied, and ignore paths stored. -/
def loadConfigApply (compiles : String → Bool) (compileRe : String → RE) (raw : JVal)
    (base : RegistryState) : RegistryState :=
  match validateConfig compiles raw with
  | .error _ => base
  | .ok cfg =>
    let withCustom := base.patterns ++ extractCustomPatterns compileRe cfg
    let withOverrides :=
      match jget cfg "severityOverrides" with
      | some v => applySeverityOverrides withCustom (entriesOf v)
      | none => withCustom
    { patterns := withOverrides
      customIgnorePaths :=
        match jget cfg "ignorePaths" with
        | some (.jarr xs) => xs.map jvalAsStr
        | _ => base.customIgnorePaths }


/-! ## Theorems -/

set_option maxRecDepth 200000


/-- Shifting the score loop's accumulator shifts the utility component. -/
theorem scoreStep_shift1 (p : Nat × Nat × Nat) (i : AISlopIssue) :
    (scoreStep p i).1 = (scoreStep (0, 0, 0) i).1 + p.1 := by
  unfold scoreStep
  split_ifs <;> simp <;> omega

theorem scoreStep_shift2 (p : Nat × Nat × Nat) (i : AISlopIssue) :
    (scoreStep p i).2.1 = (scoreStep (0, 0, 0) i).2.1 + p.2.1 := by
  unfold scoreStep
  split_ifs <;> simp <;> omega

theorem scoreStep_shift3 (p : Nat × Nat × Nat) (i : AISlopIssue) :
    (scoreStep p i).2.2 = (scoreStep (0, 0, 0) i).2.2 + p.2.2 := by
  unfold scoreStep
  split_ifs <;> simp <;> omega

theorem scoreStep_foldl_shift (issues : List AISlopIssue) (p : Nat × Nat × Nat) :
    issues.foldl scoreStep p =
      ((issues.foldl scoreStep (0, 0, 0)).1 + p.1,
       (issues.foldl scoreStep (0, 0, 0)).2.1 + p.2.1,
       (issues.foldl scoreStep (0, 0, 0)).2.2 + p.2.2) := by
  induction issues generalizing p with
  | nil => simp [Prod.ext_iff]
  | cons hd tl ih =>
    simp only [List.foldl_cons]
    rw [ih (scoreStep p hd), ih (scoreStep (0, 0, 0) hd),
        scoreStep_shift1 p hd, scoreStep_shift2 p hd, scoreStep_shift3 p hd]
    simp only [Prod.ext_iff]
    omega

/-- C4: for every list of Issues the score calculator's total equals
utility + quality + style; each Issue contributes its rule's weight from
the fixed table — exactly 3 when the rule id is not one of the fourteen
listed ids — to exactly one axis: quality if the id carries a
hallucination/placeholder/assumption marker, utility if it carries a
comment/redundancy/boilerplate marker, style otherwise. -/
theorem c4_score_axes (issues : List AISlopIssue) (i : AISlopIssue) :
    (calculateKarpeSlopScore issues).total =
      (calculateKarpeSlopScore issues).informationUtility +
        (calculateKarpeSlopScore issues).informationQuality +
        (calculateKarpeSlopScore issues).style ∧
    (slopWeight i.type = 3 ∨
      i.type ∈ ["hallucinated_react_import", "hallucinated_next_import", "any_type_usage",
        "unsafe_type_assertion", "unsafe_double_type_assertion", "overconfident_comment",
        "hedging_uncertainty_comment", "todo_implementation_placeholder",
        "assumption_comment", "redundant_self_explanatory_comment",
        "excessive_boilerplate_comment", "debug_log_with_comment",
        "unnecessary_iife_wrapper", "vibe_coded_ternary_abuse"]) ∧
    calculateKarpeSlopScore (i :: issues) =
      (if containsS i.type "hallucinated" || containsS i.type "todo" ||
          containsS i.type "assumption" then
        { informationUtility := (calculateKarpeSlopScore issues).informationUtility
          informationQuality :=
            (calculateKarpeSlopScore issues).informationQuality + slopWeight i.type
          style := (calculateKarpeSlopScore issues).style
          total := (calculateKarpeSlopScore issues).total + slopWeight i.type }
      else if containsS i.type "comment" || containsS i.type "redundant" ||
          containsS i.type "boilerplate" then
        { informationUtility :=
            (calculateKarpeSlopScore issues).informationUtility + slopWeight i.type
          informationQuality := (calculateKarpeSlopScore issues).informationQuality
          style := (calculateKarpeSlopScore issues).style
          total := (calculateKarpeSlopScore issues).total + slopWeight i.type }
      else
        { informationUtility := (calculateKarpeSlopScore issues).informationUtility
          informationQuality := (calculateKarpeSlopScore issues).informationQuality
          style := (calculateKarpeSlopScore issues).style + slopWeight i.type
          total := (calculateKarpeSlopScore issues).total + slopWeight i.type }) := by
  refine ⟨rfl, ?_, ?_⟩
  · by_cases h : i.type ∈ ["hallucinated_react_import", "hallucinated_next_import",
        "any_type_usage", "unsafe_type_assertion", "unsafe_double_type_assertion",
        "overconfident_comment", "hedging_uncertainty_comment",
        "todo_implementation_placeholder", "assumption_comment",
        "redundant_self_explanatory_comment", "excessive_boilerplate_comment",
        "debug_log_with_comment", "unnecessary_iife_wrapper", "vibe_coded_ternary_abuse"]
    · exact Or.inr h
    · left
      simp only [List.mem_cons, List.not_mem_nil, or_false, not_or] at h
      obtain ⟨n1, n2, n3, n4, n5, n6, n7, n8, n9, n10, n11, n12, n13, n14⟩ := h
      simp [slopWeight, beq_iff_eq, n1, n2, n3, n4, n5, n6, n7, n8, n9, n10, n11,
        n12, n13, n14]
  · by_cases h1 : (containsS i.type "hallucinated" || containsS i.type "todo" ||
        containsS i.type "assumption") = true
    · have hstep : scoreStep (0, 0, 0) i = (0, slopWeight i.type, 0) := by
        simp only [scoreStep]
        rw [if_pos h1]
        simp
      simp only [calculateKarpeSlopScore, List.foldl_cons]
      rw [hstep, scoreStep_foldl_shift, if_pos h1]
      simp only [SlopScoreBreakdown.mk.injEq]
      refine ⟨?_, ?_, ?_, ?_⟩ <;> first | trivial | omega
    · by_cases h2 : (containsS i.type "comment" || containsS i.type "redundant" ||
          containsS i.type "boilerplate") = true
      · have hstep : scoreStep (0, 0, 0) i = (slopWeight i.type, 0, 0) := by
          simp only [scoreStep]
          rw [if_neg h1, if_pos h2]
          simp
        simp only [calculateKarpeSlopScore, List.foldl_cons]
        rw [hstep, scoreStep_foldl_shift, if_neg h1, if_pos h2]
        simp only [SlopScoreBreakdown.mk.injEq]
        refine ⟨?_, ?_, ?_, ?_⟩ <;> first | trivial | omega
      · have hstep : scoreStep (0, 0, 0) i = (0, 0, slopWeight i.type) := by
          simp only [scoreStep]
          rw [if_neg h1, if_neg h2]
          simp
        simp only [calculateKarpeSlopScore, List.foldl_cons]
        rw [hstep, scoreStep_foldl_shift, if_neg h1, if_neg h2]
        simp only [SlopScoreBreakdown.mk.injEq]
        refine ⟨?_, ?_, ?_, ?_⟩ <;> first | trivial | omega


/-- The five-way disjunction of the single-line nested-control trigger is
exactly "two or more control openers on the line, combined across types". -/
theorem multiOpenerCond_eq (x y z : Nat) :
    (decide (1 < x) || decide (1 < y) || decide (1 < z) ||
      (decide (0 < x) && (decide (0 < y) || decide (0 < z))) ||
      (decide (0 < y) && decide (0 < z))) = decide (2 ≤ x + y + z) := by
  apply Bool.eq_iff_iff.mpr
  simp only [Bool.or_eq_true, Bool.and_eq_true, decide_eq_true_eq]
  omega

/-- C9: the nested-control heuristic emits one medium-severity
complex-nested-control issue when the line carries two or more
control-structure openers (if/for/while) combined across types, and,
independently, one when the leading-whitespace column count is at least
16, the line opens a control structure, and it is neither a comment nor
carries an arrow marker. -/
theorem c9_nested_control_triggers (filePath : String) (lines : List String)
    (lineIndex : Nat) :
    analyzeComplexNestedConditionals filePath lines lineIndex =
      (if 2 ≤ (execAll false reIfOpen (lineAt lines lineIndex).data).length +
            (execAll false reForOpen (lineAt lines lineIndex).data).length +
            (execAll false reWhileOpen (lineAt lines lineIndex).data).length then
        [{ type := "complex_nested_conditionals", file := filePath, line := lineIndex + 1,
           column := 1, code := trimS (lineAt lines lineIndex),
           message := "Found potentially complex nested control structures in a single line. Consider refactoring for readability.",
           severity := "medium" }]
      else []) ++
      (match searchNonSpace (lineAt lines lineIndex).data with
       | none => []
       | some indentation =>
         if 16 ≤ indentation ∧
             (containsS (lineAt lines lineIndex) "if (" = true ∨
              containsS (lineAt lines lineIndex) "for (" = true ∨
              containsS (lineAt lines lineIndex) "while (" = true) ∧
             startsWithS (trimS (lineAt lines lineIndex)) "//" = false ∧
             containsS (trimS (lineAt lines lineIndex)) "=>" = false then
           [{ type := "complex_nested_conditionals", file := filePath, line := lineIndex + 1,
              column := indentation + 1, code := trimS (lineAt lines lineIndex),
              message := "Highly indented control structure suggests deep nesting. Consider refactoring for readability.",
              severity := "medium" }]
         else []) := by
  simp only [analyzeComplexNestedConditionals]
  congr 1
  · rw [multiOpenerCond_eq]
    by_cases h : 2 ≤ (execAll false reIfOpen (lineAt lines lineIndex).data).length +
        (execAll false reForOpen (lineAt lines lineIndex).data).length +
        (execAll false reWhileOpen (lineAt lines lineIndex).data).length
    · rw [if_pos (by exact decide_eq_true h), if_pos h]
    · rw [if_neg (by simpa using h), if_neg h]
  · cases hs : searchNonSpace (lineAt lines lineIndex).data with
    | none => rfl
    | some indentation =>
      apply if_congr _ rfl rfl
      simp only [Bool.and_eq_true, Bool.or_eq_true, decide_eq_true_eq, Bool.not_eq_true']
      tauto


theorem analyzeLinePattern_type_line {filePath : String} {lines : List String} {i : Nat}
    {quiet : Bool} {p : DetectionPattern} {issue : AISlopIssue}
    (h : issue ∈ analyzeLinePattern filePath lines i quiet p) :
    issue.type = p.id ∧ issue.line = i + 1 := by
  unfold analyzeLinePattern at h
  split at h
  · simp at h
  split at h
  · simp at h
  rw [List.mem_filterMap] at h
  obtain ⟨m, _, hm⟩ := h
  split at hm
  · cases hm
    exact ⟨rfl, rfl⟩
  · cases hm

theorem nested_type_line {filePath : String} {lines : List String} {i : Nat}
    {issue : AISlopIssue}
    (h : issue ∈ analyzeComplexNestedConditionals filePath lines i) :
    issue.type = "complex_nested_conditionals" ∧ issue.line = i + 1 := by
  simp only [analyzeComplexNestedConditionals, List.mem_append] at h
  rcases h with h | h
  · split at h
    · simp only [List.mem_singleton] at h
      subst h
      exact ⟨rfl, rfl⟩
    · simp at h
  · split at h
    · simp at h
    · split at h
      · simp only [List.mem_singleton] at h
        subst h
        exact ⟨rfl, rfl⟩
      · simp at h

theorem acceptMatch_quiet_test {p : DetectionPattern} {filePath : String}
    (lines : List String) (i : Nat) (m : Nat)
    (htest : isTestFile filePath = true) (hid : p.id ≠ "production_console_log") :
    acceptMatch p filePath lines i true m = false := by
  have hbne : (p.id != "production_console_log") = true := bne_iff_ne.mpr hid
  simp only [acceptMatch, htest, hbne]
  simp

theorem analyzeLinePattern_quiet_test {p : DetectionPattern} {filePath : String}
    (lines : List String) (i : Nat)
    (htest : isTestFile filePath = true)
    (hp : p.skipTests = true ∨ p.id ≠ "production_console_log") :
    analyzeLinePattern filePath lines i true p = [] := by
  unfold analyzeLinePattern
  rcases hp with hskip | hid
  · rw [if_pos]
    simp [hskip, htest]
  · split
    · rfl
    split
    · rfl
    rw [List.filterMap_eq_nil]
    intro m _
    rw [acceptMatch_quiet_test lines i m.1 htest hid]
    simp

theorem detectionPatterns_skip_or_not_production :
    ∀ p ∈ detectionPatterns, p.skipTests = true ∨ p.id ≠ "production_console_log" := by
  decide

/-- C1 (amended): scanning a test-categorised file in quiet mode suppresses
every rule of the pattern registry — the non-exempt rules through the
quiet-mode test-file check and the production-logging rule through its own
test/mock exemption — so only the nested-control pass still reports. -/
theorem c1_quiet_testfile_suppression (filePath : String) (lines : List String)
    (htest : isTestFile filePath = true) :
    analyzeFile filePath lines true =
      ((List.range lines.length).map
        (fun i => analyzeComplexNestedConditionals filePath lines i)).flatten := by
  unfold analyzeFile
  congr 1
  apply List.map_congr_left
  intro i _
  have hnil : (detectionPatterns.map (analyzeLinePattern filePath lines i true)).flatten =
      ([] : List AISlopIssue) := by
    rw [List.flatten_eq_nil_iff]
    intro l hl
    rw [List.mem_map] at hl
    obtain ⟨p, hp, rfl⟩ := hl
    exact analyzeLinePattern_quiet_test lines i htest
      (detectionPatterns_skip_or_not_production p hp)
  rw [hnil, List.nil_append]

theorem c1_quiet_testfile_suppression_witness :
    isTestFile "app/x.test.ts" = true ∧
    analyzeFile "app/x.test.ts" ["console.log(1);"] true =
      ((List.range (1 : Nat)).map
        (fun i => analyzeComplexNestedConditionals "app/x.test.ts" ["console.log(1);"] i)).flatten :=
  ⟨by decide, c1_quiet_testfile_suppression "app/x.test.ts" ["console.log(1);"] (by decide)⟩

/-- C1 counterexample: in quiet mode, a file whose path carries a `.test.`
infix yields no Issue at all for a bare console.log line — the
production-logging rule's finding is not reported (its own `skipTests`
exemption fires first) — while the same content in a non-test file does
produce the production-logging Issue. -/
theorem c1_counterexample :
    analyzeFile "app/x.test.ts" ["console.log(hello);"] true = [] ∧
    analyzeFile "app/x.ts" ["console.log(hello);"] false =
      [{ type := "production_console_log", file := "app/x.ts", line := 1, column := 1,
         code := "console.log(",
         message := "Found console logging in production code. Remove before deployment. (Detects console logs in production code)",
         severity := "medium" }] :=
  ⟨by decide, by decide⟩


theorem detectionPatterns_not_complex :
    ∀ p ∈ detectionPatterns, p.id ≠ "complex_nested_conditionals" := by
  decide

theorem c10_nested_bypasses_suppression (filePath : String) (lines : List String)
    (quiet : Bool) :
    (analyzeFile filePath lines quiet).filter
        (fun issue => issue.type == "complex_nested_conditionals") =
      ((List.range lines.length).map
        (fun i => analyzeComplexNestedConditionals filePath lines i)).flatten := by
  unfold analyzeFile
  rw [List.filter_flatten]
  congr 1
  rw [List.map_map]
  apply List.map_congr_left
  intro i _
  show ((detectionPatterns.map (analyzeLinePattern filePath lines i quiet)).flatten ++
      analyzeComplexNestedConditionals filePath lines i).filter _ = _
  rw [List.filter_append]
  have h1 : ((detectionPatterns.map (analyzeLinePattern filePath lines i quiet)).flatten).filter
      (fun issue => issue.type == "complex_nested_conditionals") = [] := by
    rw [List.filter_eq_nil_iff]
    intro issue hmem
    rw [List.mem_flatten] at hmem
    obtain ⟨l, hl, hil⟩ := hmem
    rw [List.mem_map] at hl
    obtain ⟨p, hp, rfl⟩ := hl
    have htype := (analyzeLinePattern_type_line hil).1
    have hne := detectionPatterns_not_complex p hp
    simp [htype, hne]
  have h2 : (analyzeComplexNestedConditionals filePath lines i).filter
      (fun issue => issue.type == "complex_nested_conditionals") =
      analyzeComplexNestedConditionals filePath lines i := by
    rw [List.filter_eq_self]
    intro issue hmem
    simp [(nested_type_line hmem).1]
  rw [h1, h2, List.nil_append]

/-- C2: evaluating the engine at the failing input — the hallucinated
multi-specifier import line yields no Issue at all (the rule's pattern
only matches a single identifier between the import braces), while the
single-specifier form of the same hallucination yields the expected
critical Issue. -/
theorem c2_multi_specifier_import_missed :
    analyzeFile "app/page.tsx"
        ["import \x7b useRouter, Link \x7d from \x27react\x27;"] false = [] ∧
    analyzeFile "app/page.tsx"
        ["import \x7b useRouter \x7d from \x27react\x27;"] false =
      [{ type := "hallucinated_react_import", file := "app/page.tsx", line := 1, column := 1,
         code := "import \x7b useRouter \x7d from \x27react\x27",
         message := "Hallucinated React import â€” these do NOT exist in \x27react\x27 (React-specific APIs are NOT in the react package)",
         severity := "critical" }] :=
  ⟨by decide, by decide⟩

/-- C6: Scenario D — a fetch call inside a function body that also carries
a try-opener within the heuristic's window produces no
missing-error-handling Issue; the same call with no guarded block nearby
produces exactly one medium-severity Issue. -/
theorem c6_fetch_error_handling_scenarios :
    (analyzeFile "app/data.ts"
        ["async function f() \x7b", "  try \x7b", "    const r = await fetch(url);",
         "  \x7d catch (e) \x7b", "  \x7d", "\x7d"] false).filter
      (fun issue => issue.type == "missing_error_handling") = [] ∧
    (analyzeFile "app/data2.ts"
        ["async function g() \x7b", "  const r = await fetch(url);", "\x7d"] false).filter
      (fun issue => issue.type == "missing_error_handling") =
      [{ type := "missing_error_handling", file := "app/data2.ts", line := 2, column := 19,
         code := "fetch(",
         message := "Potential missing error handling for promise. Consider adding try/catch or .catch(). (Detects calls that might need error handling)",
         severity := "medium" }] :=
  ⟨by decide, by decide⟩


theorem acceptMatch_marker_family {p : DetectionPattern} {filePath : String}
    {lines : List String} {i : Nat} {quiet : Bool} {m : Nat}
    (hfam : anyOrUnsafeRule p.id = true) (hmark : ackMarkerPresent lines i = true) :
    acceptMatch p filePath lines i quiet m = false := by
  simp only [acceptMatch, hfam, hmark]
  simp

theorem analyzeLinePattern_marker_family {p : DetectionPattern} {filePath : String}
    {lines : List String} {i : Nat} {quiet : Bool}
    (hmark : ackMarkerPresent lines i = true) (hfam : anyOrUnsafeRule p.id = true) :
    analyzeLinePattern filePath lines i quiet p = [] := by
  unfold analyzeLinePattern
  split
  · rfl
  split
  · rfl
  rw [List.filterMap_eq_nil]
  intro m _
  rw [acceptMatch_marker_family hfam hmark]
  simp

theorem c7_marker_suppression (filePath : String) (lines : List String) (quiet : Bool)
    (i : Nat) (hmark : ackMarkerPresent lines i = true) :
    (∀ issue ∈ analyzeFile filePath lines quiet,
      issue.line = i + 1 → anyOrUnsafeRule issue.type = false) ∧
    analyzeFile "app/b.ts" ["// @ts-expect-error", "const x: any = 1; // TODO later"] false =
      [{ type := "todo_comment", file := "app/b.ts", line := 2, column := 22,
         code := "TODO",
         message := "Found TODO/FIXME/HACK comment indicating incomplete implementation. (Detects incomplete implementation markers)",
         severity := "medium" }] := by
  constructor
  · intro issue hmem hline
    by_contra hfam
    rw [Bool.not_eq_false] at hfam
    unfold analyzeFile at hmem
    rw [List.mem_flatten] at hmem
    obtain ⟨l, hl, hil⟩ := hmem
    rw [List.mem_map] at hl
    obtain ⟨j, hj, rfl⟩ := hl
    rw [List.mem_append] at hil
    rcases hil with hil | hil
    · rw [List.mem_flatten] at hil
      obtain ⟨l2, hl2, hil2⟩ := hil
      rw [List.mem_map] at hl2
      obtain ⟨p, hp, rfl⟩ := hl2
      obtain ⟨htype, hlineEq⟩ := analyzeLinePattern_type_line hil2
      have hji : j = i := by omega
      subst hji
      rw [analyzeLinePattern_marker_family hmark (htype ▸ hfam)] at hil2
      exact absurd hil2 (List.not_mem_nil _)
    · have hty := (nested_type_line hil).1
      rw [hty] at hfam
      exact absurd hfam (by decide)
  · decide

theorem c7_marker_suppression_witness :
    ackMarkerPresent ["// @ts-expect-error", "const x: any = 1; // TODO later"] 1 = true ∧
    ((∀ issue ∈ analyzeFile "app/b.ts"
          ["// @ts-expect-error", "const x: any = 1; // TODO later"] false,
        issue.line = 1 + 1 → anyOrUnsafeRule issue.type = false) ∧
      analyzeFile "app/b.ts" ["// @ts-expect-error", "const x: any = 1; // TODO later"] false =
        [{ type := "todo_comment", file := "app/b.ts", line := 2, column := 22,
           code := "TODO",
           message := "Found TODO/FIXME/HACK comment indicating incomplete implementation. (Detects incomplete implementation markers)",
           severity := "medium" }]) :=
  ⟨by decide,
    c7_marker_suppression "app/b.ts" ["// @ts-expect-error", "const x: any = 1; // TODO later"]
      false 1 (by decide)⟩

/-- C7 counterexample: a bare @ts-ignore on the immediately preceding line
does not suppress the next line's permissive-type Issue — the engine only
honours eslint-disable-next-line and @ts-expect-error on the preceding
line — so the claimed suppression fails at this input. -/
theorem c7_counterexample :
    analyzeFile "app/a.ts" ["// @ts-ignore", "const x: any = 1;"] false =
      [{ type := "any_type_usage", file := "app/a.ts", line := 2, column := 8,
         code := ": any",
         message := "Found \x27any\x27 type usage. Replace with specific type or unknown. (Detects : any type annotations)",
         severity := "high" }] := by
  decide


theorem ite_chain3_true {A B C : Prop} [Decidable A] [Decidable B] [Decidable C]
    {X : Bool} (h : X = true) :
    (if A then true else if B then true else if C then true else X) = true := by
  split_ifs <;> simp [h]

theorem tryCatchScan_catch_brace (lines : List String) :
    ∀ i d c, (∃ i0, i0 ≤ i ∧ containsS (lineAt lines i0) "catch (" = true ∧
        (containsS (lineAt lines i0) "\x7b" || catchBraceNearby lines i0) = true) →
      tryCatchScan lines i d c = true := by
  intro i
  induction i with
  | zero =>
    intro d c h
    obtain ⟨i0, hle, hcatch, hbrace⟩ := h
    have hi0 : i0 = 0 := Nat.le_zero.mp hle
    subst hi0
    rw [tryCatchScan]
    simp [hcatch, hbrace]
  | succ j ih =>
    intro d c h
    obtain ⟨i0, hle, hcatch, hbrace⟩ := h
    by_cases hi0 : i0 = j + 1
    · subst hi0
      rw [tryCatchScan]
      simp [hcatch, hbrace]
    · have hle' : i0 ≤ j := by omega
      rw [tryCatchScan]
      dsimp only
      exact ite_chain3_true (ih _ _ ⟨i0, hle', hcatch, hbrace⟩)

/-- C5 (amended): the enclosure check returns true whenever the backward
scan can reach a line at or before the target that contains a `catch (`
opener with an opening brace on the same line or within the next four
lines — brace depth is not consulted for this check, and a catch opener
whose opening brace lies further below is not recognised. -/
theorem c5_catch_brace_sufficient (lines : List String) (t i0 : Nat)
    (hle : i0 ≤ t)
    (hcatch : containsS (lineAt lines i0) "catch (" = true)
    (hbrace : (containsS (lineAt lines i0) "\x7b" || catchBraceNearby lines i0) = true) :
    isInTryCatchBlock lines t = true :=
  tryCatchScan_catch_brace lines t 0 none ⟨i0, hle, hcatch, hbrace⟩

theorem c5_catch_brace_sufficient_witness :
    ((0 : Nat) ≤ 1 ∧ containsS (lineAt ["\x7d catch (e) \x7b", "console.error(1)"] 0) "catch (" = true ∧
      (containsS (lineAt ["\x7d catch (e) \x7b", "console.error(1)"] 0) "\x7b" ||
        catchBraceNearby ["\x7d catch (e) \x7b", "console.error(1)"] 0) = true) ∧
    isInTryCatchBlock ["\x7d catch (e) \x7b", "console.error(1)"] 1 = true :=
  ⟨⟨by decide, by decide, by decide⟩,
    c5_catch_brace_sufficient ["\x7d catch (e) \x7b", "console.error(1)"] 1 0
      (by decide) (by decide) (by decide)⟩

/-- C5 counterexample: a catch opener whose opening brace sits more than
four lines below it and whose block encloses the target — the claim's
stated condition holds, but the code's check returns false, refuting the
claimed "exactly when". -/
theorem c5_counterexample :
    claimGuardCondition
        ["\x7b", "catch (e)", "", "", "", "", "", "\x7b", "console.error(1)"] 8 = true ∧
    isInTryCatchBlock
        ["\x7b", "catch (e)", "", "", "", "", "", "\x7b", "console.error(1)"] 8 = false :=
  ⟨by decide, by decide⟩


theorem isPrefixL_self_append : ∀ (p t : List Char), isPrefixL p (p ++ t) = true := by
  intro p t
  induction p with
  | nil => rfl
  | cons c cs ih => simp [isPrefixL, ih]

theorem isPrefixL_append_right : ∀ (n m t : List Char),
    isPrefixL n m = true → isPrefixL n (m ++ t) = true := by
  intro n
  induction n with
  | nil => intro m t _; rfl
  | cons x xs ih =>
    intro m t h
    cases m with
    | nil => cases h
    | cons c cs =>
      simp only [isPrefixL, Bool.and_eq_true] at h
      simp only [List.cons_append, isPrefixL, Bool.and_eq_true]
      exact ⟨h.1, ih cs t h.2⟩

theorem isPrefixL_append_both : ∀ (X n m : List Char),
    isPrefixL n m = true → isPrefixL (X ++ n) (X ++ m) = true := by
  intro X
  induction X with
  | nil => intro n m h; exact h
  | cons c cs ih =>
    intro n m h
    simp only [List.cons_append, isPrefixL, Bool.and_eq_true]
    exact ⟨by simp, ih n m h⟩

theorem containsL_of_prefix : ∀ (p l : List Char), isPrefixL p l = true → containsL p l = true := by
  intro p l h
  cases l with
  | nil => exact h
  | cons c cs => simp [containsL, h]

theorem containsS_append_of_prefix (X m n : String) (hp : isPrefixL n.data m.data = true) :
    containsS (X ++ m) (X ++ n) = true := by
  unfold containsS
  rw [String.data_append, String.data_append]
  exact containsL_of_prefix _ _ (isPrefixL_append_both X.data n.data m.data hp)

theorem validateCustomPattern_error_mentions_index (compiles : String → Bool)
    (i : Nat) (p : JVal) (e : String)
    (h : validateCustomPattern compiles i p = .error e) :
    containsS e ("customPatterns[" ++ toString i ++ "]") = true := by
  simp only [validateCustomPattern] at h
  split_ifs at h
  · injection h with he
    subst he
    exact containsS_append_of_prefix _ _ _ (by decide)
  · injection h with he
    subst he
    exact containsS_append_of_prefix _ _ _ (by decide)
  · injection h with he
    subst he
    exact containsS_append_of_prefix _ _ _ (by decide)
  · injection h with he
    subst he
    exact containsS_append_of_prefix _ _ _ (by decide)
  · injection h with he
    subst he
    rw [String.append_assoc]
    apply containsS_append_of_prefix
    rw [String.data_append]
    exact isPrefixL_append_right _ _ _ (by decide)

theorem validateCustomPatterns_first_error (compiles : String → Bool) :
    ∀ (xs : List JVal) (j : Nat) (e : String),
      validateCustomPatterns compiles j xs = .error e →
      ∃ k p, xs.get? k = some p ∧ validateCustomPattern compiles (j + k) p = .error e ∧
        (∀ m q, m < k → xs.get? m = some q →
          validateCustomPattern compiles (j + m) q = .ok ()) ∧
        containsS e ("customPatterns[" ++ toString (j + k) ++ "]") = true := by
  intro xs
  induction xs with
  | nil => intro j e h; cases h
  | cons p ps ih =>
    intro j e h
    rw [validateCustomPatterns] at h
    cases hv : validateCustomPattern compiles j p with
    | error e2 =>
      rw [hv] at h
      injection h with he
      subst he
      refine ⟨0, p, rfl, by simpa using hv, ?_, ?_⟩
      · intro m q hm
        omega
      · simpa using validateCustomPattern_error_mentions_index compiles j p e2 hv
    | ok u =>
      rw [hv] at h
      obtain ⟨k, q, hget, herr, hbefore, hmention⟩ := ih (j + 1) e h
      refine ⟨k + 1, q, by simpa using hget, ?_, ?_, ?_⟩
      · have hjk : j + (k + 1) = j + 1 + k := by omega
        rw [hjk]
        exact herr
      · intro m r hm hgetm
        cases m with
        | zero =>
          simp only [List.get?] at hgetm
          injection hgetm with hpr
          subst hpr
          cases u
          simpa using hv
        | succ m2 =>
          have hjm : j + (m2 + 1) = j + 1 + m2 := by omega
          rw [hjm]
          exact hbefore m2 r (by omega) (by simpa using hgetm)
      · have hjk : j + (k + 1) = j + 1 + k := by omega
        rw [hjk]
        exact hmention

/-- C8 (amended): a malformed configuration is rejected atomically — on
any validation error `loadConfig` applies nothing: no custom rule is
registered and no severity override or ignore path is applied — and
custom-rule validation stops at the first failing rule, whose descriptive
error names that rule's index (the rule's id is not part of the message). -/
theorem c8_config_rejection (compiles : String → Bool) (compileRe : String → RE)
    (raw : JVal) (base : RegistryState) (e : String)
    (h : validateConfig compiles raw = .error e) :
    loadConfigApply compiles compileRe raw base = base ∧
    (∀ (xs : List JVal) (j : Nat) (e2 : String),
      validateCustomPatterns compiles j xs = .error e2 →
      ∃ k p, xs.get? k = some p ∧ validateCustomPattern compiles (j + k) p = .error e2 ∧
        (∀ m q, m < k → xs.get? m = some q →
          validateCustomPattern compiles (j + m) q = .ok ()) ∧
        containsS e2 ("customPatterns[" ++ toString (j + k) ++ "]") = true) := by
  constructor
  · unfold loadConfigApply
    rw [h]
  · exact validateCustomPatterns_first_error compiles

/-- C8 counterexample: the validation error for a rule with an invalid
severity names the rule's index but not its id — the rule is called
"myrule" and the message never mentions it, refuting "naming the
offending rule's index and id". -/
theorem c8_counterexample :
    validateConfig (fun _ => true)
        (.jobj [("customPatterns", .jarr
          [.jobj [("id", .jstr "myrule"), ("pattern", .jstr "abc"),
                  ("message", .jstr "m"), ("severity", .jstr "sometimes")]])]) =
      .error "customPatterns[0].severity must be one of: critical, high, medium, low" ∧
    containsS "customPatterns[0].severity must be one of: critical, high, medium, low"
        "myrule" = false :=
  ⟨by rfl, by decide⟩

theorem c8_config_rejection_witness :
    validateConfig (fun _ => false)
        (.jobj [("customPatterns", .jarr
          [.jobj [("id", .jstr "r0"), ("pattern", .jstr "x"),
                  ("message", .jstr "m"), ("severity", .jstr "low")]])]) =
      .error "customPatterns[0].pattern is not a valid regex: x" ∧
    loadConfigApply (fun _ => false) (fun _ => RE.eps)
        (.jobj [("customPatterns", .jarr
          [.jobj [("id", .jstr "r0"), ("pattern", .jstr "x"),
                  ("message", .jstr "m"), ("severity", .jstr "low")]])])
        { patterns := detectionPatterns, customIgnorePaths := [] } =
      { patterns := detectionPatterns, customIgnorePaths := [] } :=
  ⟨by rfl,
    (c8_config_rejection (fun _ => false) (fun _ => RE.eps)
      (.jobj [("customPatterns", .jarr
        [.jobj [("id", .jstr "r0"), ("pattern", .jstr "x"),
                ("message", .jstr "m"), ("severity", .jstr "low")]])])
      { patterns := detectionPatterns, customIgnorePaths := [] }
      "customPatterns[0].pattern is not a valid regex: x" (by rfl)).1⟩


theorem mem_firstKeysAux : ∀ (l : List String) (seen : List String) (x : String),
    x ∈ firstKeysAux seen l ↔ x ∈ l ∧ x ∉ seen := by
  intro l
  induction l with
  | nil => intro seen x; simp [firstKeysAux]
  | cons k ks ih =>
    intro seen x
    rw [firstKeysAux]
    split
    · rename_i hk
      rw [ih]
      simp only [List.mem_cons]
      constructor
      · rintro ⟨hx, hs⟩
        exact ⟨Or.inr hx, hs⟩
      · rintro ⟨hx | hx, hs⟩
        · subst hx
          exact absurd (by simpa using hk) hs
        · exact ⟨hx, hs⟩
    · rename_i hk
      simp only [List.mem_cons, ih, List.mem_cons]
      constructor
      · rintro (rfl | ⟨hx, hs⟩)
        · exact ⟨Or.inl rfl, by simpa using hk⟩
        · refine ⟨Or.inr hx, ?_⟩
          intro hxs
          exact hs (Or.inr hxs)
      · rintro ⟨rfl | hx, hs⟩
        · exact Or.inl rfl
        · by_cases hxk : x = k
          · exact Or.inl hxk
          · exact Or.inr ⟨hx, by simp [hxk, hs]⟩

theorem mem_firstKeys (l : List String) (x : String) : x ∈ firstKeys l ↔ x ∈ l := by
  rw [firstKeys, mem_firstKeysAux]
  simp

theorem firstKeysAux_snoc : ∀ (l : List String) (seen : List String) (k : String),
    firstKeysAux seen (l ++ [k]) =
      firstKeysAux seen l ++ (if k ∈ seen ∨ k ∈ l then [] else [k]) := by
  intro l
  induction l with
  | nil =>
    intro seen k
    simp only [List.nil_append, firstKeysAux]
    split
    · rename_i h
      rw [if_pos (Or.inl (by simpa using h))]
    · rename_i h
      rw [if_neg (by simp_all)]
  | cons c cs ih =>
    intro seen k
    simp only [List.cons_append, firstKeysAux, List.append_eq]
    split
    · rename_i h
      rw [ih]
      congr 1
      by_cases hk : k ∈ seen ∨ k ∈ cs
      · rw [if_pos hk, if_pos (by tauto)]
      · rw [if_neg hk, if_neg ?_]
        rintro (hs | hc)
        · exact hk (Or.inl hs)
        · rcases List.mem_cons.mp hc with rfl | hc2
          · exact hk (Or.inl (by simpa using h))
          · exact hk (Or.inr hc2)
    · rename_i h
      rw [ih]
      simp only [List.cons_append]
      congr 1
      by_cases hk : k ∈ c :: seen ∨ k ∈ cs
      · rw [if_pos hk, if_pos ?_]
        rcases hk with hks | hkc
        · rcases List.mem_cons.mp hks with rfl | hs
          · exact Or.inr (List.mem_cons_self _ _)
          · exact Or.inl hs
        · exact Or.inr (List.mem_cons_of_mem _ hkc)
      · rw [if_neg hk, if_neg ?_]
        rintro (hs | hc)
        · exact hk (Or.inl (List.mem_cons_of_mem _ hs))
        · rcases List.mem_cons.mp hc with rfl | hc2
          · exact hk (Or.inl (List.mem_cons_self _ _))
          · exact hk (Or.inr hc2)

theorem nodup_firstKeysAux : ∀ (l : List String) (seen : List String),
    (firstKeysAux seen l).Nodup := by
  intro l
  induction l with
  | nil => intro seen; simp [firstKeysAux]
  | cons k ks ih =>
    intro seen
    rw [firstKeysAux]
    split
    · exact ih seen
    · refine List.Nodup.cons ?_ (ih (k :: seen))
      intro hmem
      exact ((mem_firstKeysAux ks (k :: seen) k).mp hmem).2 (List.mem_cons_self _ _)

theorem firstKeys_snoc (l : List String) (k : String) :
    firstKeys (l ++ [k]) = firstKeys l ++ (if k ∈ l then [] else [k]) := by
  rw [firstKeys, firstKeysAux_snoc]
  simp [firstKeys]

theorem groupFor_snoc_mem (pre : List AISlopIssue) (i : AISlopIssue) (k : String)
    (hk : ∃ x ∈ pre, keyOf x = k) :
    groupFor (pre ++ [i]) k =
      if keyOf i == k then addLoc (groupFor pre k) i else groupFor pre k := by
  obtain ⟨x, hx, hxk⟩ := hk
  have hsome : (List.find? (fun y => keyOf y == k) pre).isSome := by
    rw [List.find?_isSome]
    exact ⟨x, hx, by simp [hxk]⟩
  obtain ⟨i0, hfind⟩ := Option.isSome_iff_exists.mp hsome
  unfold groupFor
  rw [List.find?_append, hfind, List.filter_append]
  simp only [Option.or]
  by_cases hik : (keyOf i == k) = true
  · rw [if_pos hik]
    simp [addLoc, List.filter_cons, hik]
  · rw [if_neg hik]
    simp only [List.filter_cons, List.filter_nil]
    rw [if_neg (by simpa using hik)]
    simp

theorem groupFor_snoc_new (pre : List AISlopIssue) (i : AISlopIssue)
    (hk : keyOf i ∉ pre.map keyOf) :
    groupFor (pre ++ [i]) (keyOf i) = newConsolidated i := by
  have hfind : List.find? (fun y => keyOf y == keyOf i) pre = none := by
    rw [List.find?_eq_none]
    intro x hx
    simp only [beq_iff_eq]
    intro hxk
    exact hk (hxk ▸ List.mem_map_of_mem keyOf hx)
  have hfilter : List.filter (fun y => keyOf y == keyOf i) pre = [] := by
    rw [List.filter_eq_nil_iff]
    intro x hx
    simp only [beq_iff_eq]
    intro hxk
    exact hk (hxk ▸ List.mem_map_of_mem keyOf hx)
  unfold groupFor
  rw [List.find?_append, hfind, List.filter_append, hfilter]
  simp [newConsolidated, List.filter_cons]

theorem insertIssue_build (pre : List AISlopIssue) (i : AISlopIssue) :
    insertIssue ((firstKeys (pre.map keyOf)).map (fun k => (k, groupFor pre k))) i =
      (firstKeys ((pre ++ [i]).map keyOf)).map (fun k => (k, groupFor (pre ++ [i]) k)) := by
  have hmapkeys : (pre ++ [i]).map keyOf = pre.map keyOf ++ [keyOf i] := by simp
  rw [hmapkeys, firstKeys_snoc]
  unfold insertIssue
  by_cases hmem : keyOf i ∈ pre.map keyOf
  · have hany : ((firstKeys (pre.map keyOf)).map (fun k => (k, groupFor pre k))).any
        (fun kv => kv.1 == keyOf i) = true := by
      rw [List.any_eq_true]
      refine ⟨(keyOf i, groupFor pre (keyOf i)), ?_, by simp⟩
      exact List.mem_map_of_mem _ ((mem_firstKeys _ _).mpr hmem)
    rw [if_pos hany, if_pos hmem, List.append_nil, List.map_map]
    apply List.map_congr_left
    intro k hkf
    have hkks : k ∈ pre.map keyOf := (mem_firstKeys _ _).mp hkf
    have hex : ∃ x ∈ pre, keyOf x = k := by
      obtain ⟨x, hx, hxk⟩ := List.mem_map.mp hkks
      exact ⟨x, hx, hxk⟩
    rw [Function.comp]
    by_cases hkk : k = keyOf i
    · subst hkk
      simp only [beq_self_eq_true, if_true]
      rw [groupFor_snoc_mem pre i (keyOf i) hex]
      simp
    · have h1 : (k == keyOf i) = false := by simp [hkk]
      have h2 : (keyOf i == k) = false := by simp [Ne.symm hkk]
      rw [groupFor_snoc_mem pre i k hex, h2]
      simp [h1]
  · have hany : ((firstKeys (pre.map keyOf)).map (fun k => (k, groupFor pre k))).any
        (fun kv => kv.1 == keyOf i) = false := by
      rw [List.any_eq_false]
      rintro ⟨k, c⟩ hkv
      obtain ⟨k2, hk2, hpair⟩ := List.mem_map.mp hkv
      injection hpair with hfst hsnd
      subst hfst
      simp only [beq_iff_eq]
      intro hkk
      exact hmem (hkk ▸ (mem_firstKeys _ _).mp hk2)
    rw [if_neg (by simp [hany]), if_neg hmem, List.map_append]
    congr 1
    · apply List.map_congr_left
      intro k hkf
      have hkks : k ∈ pre.map keyOf := (mem_firstKeys _ _).mp hkf
      have hex : ∃ x ∈ pre, keyOf x = k := by
        obtain ⟨x, hx, hxk⟩ := List.mem_map.mp hkks
        exact ⟨x, hx, hxk⟩
      have h2 : (keyOf i == k) = false := by
        simp only [beq_eq_false_iff_ne, ne_eq]
        intro hkk
        exact hmem (hkk ▸ hkks)
      rw [groupFor_snoc_mem pre i k hex, h2]
      simp
    · simp only [List.map_cons, List.map_nil]
      rw [groupFor_snoc_new pre i hmem]

theorem consolidate_foldl (suffix : List AISlopIssue) : ∀ (pre : List AISlopIssue),
    suffix.foldl insertIssue ((firstKeys (pre.map keyOf)).map (fun k => (k, groupFor pre k))) =
      (firstKeys ((pre ++ suffix).map keyOf)).map
        (fun k => (k, groupFor (pre ++ suffix) k)) := by
  induction suffix with
  | nil => intro pre; simp
  | cons i rest ih =>
    intro pre
    rw [List.foldl_cons, insertIssue_build pre i, ih (pre ++ [i]),
      List.append_assoc, List.singleton_append]

theorem consolidateIssues_eq_groups (issues : List AISlopIssue) :
    consolidateIssues issues = (firstKeys (issues.map keyOf)).map (groupFor issues) := by
  unfold consolidateIssues
  have h0 := consolidate_foldl issues []
  simp only [List.map_nil, List.nil_append, firstKeys, firstKeysAux] at h0
  rw [h0, List.map_map]
  apply List.map_congr_left
  intro k _
  rfl

theorem firstKeys_perm_dedup (l : List String) : (firstKeys l).Perm l.dedup := by
  rw [List.perm_ext_iff_of_nodup (by exact nodup_firstKeysAux l []) (List.nodup_dedup l)]
  intro a
  rw [mem_firstKeys, List.mem_dedup]

theorem locSum_consolidate (issues : List AISlopIssue) :
    locSum (consolidateIssues issues) = issues.length := by
  rw [consolidateIssues_eq_groups, locSum, List.map_map]
  have hpt : ∀ k ∈ firstKeys (issues.map keyOf),
      ((fun c => c.location.length) ∘ groupFor issues) k =
        List.count k (issues.map keyOf) := by
    intro k hk
    have hkks : k ∈ issues.map keyOf := (mem_firstKeys _ _).mp hk
    obtain ⟨x, hx, hxk⟩ := List.mem_map.mp hkks
    have hsome : (List.find? (fun y => keyOf y == k) issues).isSome := by
      rw [List.find?_isSome]
      exact ⟨x, hx, by simp [hxk]⟩
    obtain ⟨i0, hfind⟩ := Option.isSome_iff_exists.mp hsome
    show (groupFor issues k).location.length = _
    unfold groupFor
    rw [hfind]
    simp only [List.length_map]
    rw [List.count_eq_countP, List.countP_map, List.countP_eq_length_filter]
    congr 1
  rw [List.map_congr_left hpt]
  have hperm := (firstKeys_perm_dedup (issues.map keyOf)).map
    (fun k => List.count k (issues.map keyOf))
  rw [List.Perm.sum_eq hperm, List.sum_map_count_dedup_eq_length, List.length_map]

theorem not_mem_of_not_containsL_single : ∀ (l : List Char) (ch : Char),
    containsL [ch] l = false → ch ∉ l := by
  intro l ch
  induction l with
  | nil => intro _ hm; simp at hm
  | cons c cs ih =>
    intro h hmem
    rw [containsL] at h
    simp only [Bool.or_eq_false_iff] at h
    obtain ⟨h1, h2⟩ := h
    rcases List.mem_cons.mp hmem with rfl | hm
    · simp [isPrefixL] at h1
    · exact ih h2 hm

theorem pipe_split : ∀ (a : List Char) (c : List Char) (b d : List Char),
    '|' ∉ a → '|' ∉ c → a ++ '|' :: b = c ++ '|' :: d → a = c ∧ b = d := by
  intro a
  induction a with
  | nil =>
    intro c b d _ hc h
    cases c with
    | nil => simpa using h
    | cons x xs =>
      simp only [List.nil_append, List.cons_append] at h
      injection h with h1 h2
      subst h1
      exact absurd (List.mem_cons_self _ _) hc
  | cons y ys ih =>
    intro c b d ha hc h
    cases c with
    | nil =>
      simp only [List.cons_append, List.nil_append] at h
      injection h with h1 h2
      subst h1
      exact absurd (List.mem_cons_self _ _) ha
    | cons x xs =>
      simp only [List.cons_append] at h
      injection h with h1 h2
      subst h1
      have hr := ih xs b d (fun hm => ha (List.mem_cons_of_mem _ hm))
        (fun hm => hc (List.mem_cons_of_mem _ hm)) h2
      exact ⟨by rw [hr.1], hr.2⟩

theorem keyOf_data (i : AISlopIssue) :
    (keyOf i).data =
      i.type.data ++ '|' :: (i.file.data ++ '|' :: (i.code.data ++ '|' ::
        (i.message.data ++ '|' :: i.severity.data))) := by
  simp only [keyOf, String.data_append, List.append_assoc]
  rfl

theorem noPipe_fields {i : AISlopIssue} (h : noPipe i = true) :
    '|' ∉ i.type.data ∧ '|' ∉ i.file.data ∧ '|' ∉ i.code.data ∧ '|' ∉ i.message.data := by
  simp only [noPipe, Bool.not_eq_eq_eq_not, Bool.not_true, Bool.or_eq_false_iff] at h
  exact ⟨not_mem_of_not_containsL_single _ _ h.1.1.1.1,
    not_mem_of_not_containsL_single _ _ h.1.1.1.2,
    not_mem_of_not_containsL_single _ _ h.1.1.2,
    not_mem_of_not_containsL_single _ _ h.1.2⟩

theorem keyOf_inj_of_noPipe (a b : AISlopIssue) (ha : noPipe a = true) (hb : noPipe b = true) :
    keyOf a = keyOf b ↔ (a.type = b.type ∧ a.file = b.file ∧ a.code = b.code ∧
      a.message = b.message ∧ a.severity = b.severity) := by
  constructor
  · intro h
    have hd : (keyOf a).data = (keyOf b).data := by rw [h]
    rw [keyOf_data, keyOf_data] at hd
    obtain ⟨hT, hfa⟩ := pipe_split _ _ _ _ (noPipe_fields ha).1 (noPipe_fields hb).1 hd
    obtain ⟨hF, hfb⟩ := pipe_split _ _ _ _ (noPipe_fields ha).2.1 (noPipe_fields hb).2.1 hfa
    obtain ⟨hC, hfc⟩ := pipe_split _ _ _ _ (noPipe_fields ha).2.2.1 (noPipe_fields hb).2.2.1 hfb
    obtain ⟨hM, hS⟩ := pipe_split _ _ _ _ (noPipe_fields ha).2.2.2 (noPipe_fields hb).2.2.2 hfc
    exact ⟨String.ext hT, String.ext hF, String.ext hC, String.ext hM, String.ext hS⟩
  · rintro ⟨h1, h2, h3, h4, h5⟩
    rw [keyOf, keyOf, h1, h2, h3, h4, h5]

/-- C3 (amended): consolidation groups by the string key joining the five
fields with the `|` separator; summing `locations.length` over the
consolidated issues always equals the number of accepted raw matches, the
groups appear in first-seen key order with each group carrying the ordered
locations of exactly the issues sharing its key, and — whenever no field
value contains the separator, true of every built-in rule — equality of
keys coincides with agreement on all five fields. -/
theorem c3_consolidation_characterization (issues : List AISlopIssue) :
    locSum (consolidateIssues issues) = issues.length ∧
    consolidateIssues issues = (firstKeys (issues.map keyOf)).map (groupFor issues) ∧
    (∀ a b : AISlopIssue, noPipe a = true → noPipe b = true →
      (keyOf a = keyOf b ↔ (a.type = b.type ∧ a.file = b.file ∧ a.code = b.code ∧
        a.message = b.message ∧ a.severity = b.severity))) :=
  ⟨locSum_consolidate issues, consolidateIssues_eq_groups issues, keyOf_inj_of_noPipe⟩

theorem c3_consolidation_characterization_witness :
    noPipe ⟨"any_type_usage", "app/w.ts", 1, 8, ": any", "m", "high"⟩ = true ∧
    noPipe ⟨"any_type_usage", "app/w.ts", 2, 3, ": any", "m", "high"⟩ = true ∧
    locSum (consolidateIssues
        [⟨"any_type_usage", "app/w.ts", 1, 8, ": any", "m", "high"⟩,
         ⟨"any_type_usage", "app/w.ts", 2, 3, ": any", "m", "high"⟩]) = 2 ∧
    (keyOf ⟨"any_type_usage", "app/w.ts", 1, 8, ": any", "m", "high"⟩ =
        keyOf ⟨"any_type_usage", "app/w.ts", 2, 3, ": any", "m", "high"⟩ ↔
      ("any_type_usage" = "any_type_usage" ∧ "app/w.ts" = "app/w.ts" ∧
        ": any" = ": any" ∧ "m" = "m" ∧ "high" = "high")) :=
  ⟨by decide, by decide,
    (c3_consolidation_characterization
      [⟨"any_type_usage", "app/w.ts", 1, 8, ": any", "m", "high"⟩,
       ⟨"any_type_usage", "app/w.ts", 2, 3, ": any", "m", "high"⟩]).1,
    (c3_consolidation_characterization
      [⟨"any_type_usage", "app/w.ts", 1, 8, ": any", "m", "high"⟩]).2.2 _ _
      (by decide) (by decide)⟩

/-- C3 counterexample: a run over two files whose path and matched text
straddle the `|` separator produces two Issues that differ in their file
field yet share one ConsolidatedIssue — the joined keys collide — refuting
"two Issues land in the same ConsolidatedIssue if and only if they agree
on all five fields". -/
theorem c3_counterexample :
    (analyzeFile "p.ts" ["//q.ts|//z hopefully"] false ++
        analyzeFile "p.ts|//q.ts" ["//z hopefully"] false).map (fun i => i.file) =
      ["p.ts", "p.ts|//q.ts"] ∧
    (consolidateIssues (analyzeFile "p.ts" ["//q.ts|//z hopefully"] false ++
        analyzeFile "p.ts|//q.ts" ["//z hopefully"] false)).map
      (fun c => (c.file, c.location)) =
      [("p.ts", ["1:1", "1:1"])] :=
  ⟨by decide, by decide⟩
